import Mathlib

/-!
Verification development for the SummAID backend (hybrid retrieval +
parallel structured-extraction pipeline).

Text is modelled as `List Char`, matching Python string semantics
(`len`, slicing and `in` all operate on Unicode code points, as Python
`str` does).  Each definition below is a shallow embedding of the
corresponding function in `backend/main.py`, `backend/parallel_prompts.py`,
`backend/schemas.py` or `backend/config.py`; external collaborators
(the generation service, `json.loads`, `unicodedata.normalize`) are
passed in as opaque function parameters.
-/

set_option maxHeartbeats 1000000

/-- Text: a Python `str` as its list of code points. -/
abbrev Txt := List Char

/-- Build a `Txt` from a Lean string literal. -/
def txt (s : String) : Txt := s.data

/-- Python `str` whitespace predicate (the code-point set recognised by
`str.split()`/`str.strip()`): ASCII whitespace plus the Unicode space
separators. -/
def isPyWs (c : Char) : Bool :=
  c = ' ' || c = '\t' || c = '\n' || c = '\x0d' || c = '\x0b' || c = '\x0c' ||
  c = '\x1c' || c = '\x1d' || c = '\x1e' || c = '\x1f' ||
  c = Char.ofNat 0x85 || c = Char.ofNat 0xa0 || c = Char.ofNat 0x1680 ||
  (0x2000 ≤ c.toNat && c.toNat ≤ 0x200a) ||
  c = Char.ofNat 0x2028 || c = Char.ofNat 0x2029 || c = Char.ofNat 0x202f ||
  c = Char.ofNat 0x205f || c = Char.ofNat 0x3000

/-- Python `str.lower()` (ASCII case folding; the inputs handled by the
backend are ASCII-cased). -/
def pyLower (s : Txt) : Txt := s.map Char.toLower

/-- `a` is a prefix of `b` (executable). -/
def isPrefTxt : Txt → Txt → Bool
  | [], _ => true
  | _ :: _, [] => false
  | a :: as_, b :: bs => a = b && isPrefTxt as_ bs

/-- Python substring test `n in h`. -/
def containsSub (n : Txt) : Txt → Bool
  | [] => n.isEmpty
  | c :: t => isPrefTxt n (c :: t) || containsSub n t

/-- Python `str.strip()` with no arguments. -/
def pyStrip (s : Txt) : Txt :=
  ((s.dropWhile isPyWs).reverse.dropWhile isPyWs).reverse

/-- Worker for `pySplitWs`: `cur` is the reversed token being accumulated. -/
def pySplitWsAux (cur : Txt) : Txt → List Txt
  | [] => if cur.isEmpty then [] else [cur.reverse]
  | c :: t =>
    if isPyWs c then
      if cur.isEmpty then pySplitWsAux [] t
      else cur.reverse :: pySplitWsAux [] t
    else pySplitWsAux (c :: cur) t

/-- Python `str.split()` with no arguments: split on runs of whitespace,
discarding empty pieces. -/
def pySplitWs (s : Txt) : List Txt := pySplitWsAux [] s

/-- Python `str.split(sep)` for a one-character separator: keeps empty
pieces and always returns at least one piece. -/
def splitOnChar (sep : Char) : Txt → List Txt
  | [] => [[]]
  | c :: t =>
    if c = sep then [] :: splitOnChar sep t
    else
      match splitOnChar sep t with
      | [] => [[c]]
      | p :: ps => (c :: p) :: ps

/-- Worker for `pyReplace`, structurally recursive on a fuel counter. -/
def pyReplaceFuel (old new : Txt) : Nat → Txt → Txt
  | _, [] => []
  | 0, s => s
  | fuel + 1, c :: t =>
    if old.isEmpty then c :: t
    else if isPrefTxt old (c :: t) then
      new ++ pyReplaceFuel old new fuel (t.drop (old.length - 1))
    else c :: pyReplaceFuel old new fuel t

/-- Python `str.replace(old, new)` for non-empty `old`: left-to-right,
non-overlapping.  The fuel (one unit per consumed character, so the input
length suffices) only makes the recursion structural; it is never
exhausted.  (Python's behaviour for an empty pattern — interleaving `new`
everywhere — is not needed here: every call site uses a non-empty pattern
or models a source site whose pattern text is non-empty.) -/
def pyReplace (old new : Txt) (s : Txt) : Txt := pyReplaceFuel old new s.length s

/-- Python `s[-n:]` for `n > 0`: the trailing `n` code points. -/
def pyTakeRight (n : Nat) (s : Txt) : Txt := s.drop (s.length - n)

/-- Python `s.find(ch)` for a single character, `None` instead of `-1`. -/
def pyFindChar (ch : Char) : Txt → Option Nat
  | [] => none
  | c :: t => if c = ch then some 0 else (pyFindChar ch t).map (· + 1)

/-- Python `s.rfind(ch)` for a single character, `None` instead of `-1`. -/
def pyRfindChar (ch : Char) (s : Txt) : Option Nat :=
  (pyFindChar ch s.reverse).map (fun i => s.length - 1 - i)

/-- Python `s[a:b]` for natural bounds. -/
def pySlice (s : Txt) (a b : Nat) : Txt := (s.drop a).take (b - a)

/-! ### Text Normalizer (`main.py::_normalize_text`) -/

/-- Shorthand for a code point. -/
def cp (n : Nat) : Char := Char.ofNat n

/-- The mojibake replacement table of `_normalize_text`, as the Python
interpreter actually builds it.  The dict literal in the source is itself
mojibake-damaged: one key occurs twice (the later value wins), and a stray
`"` inside one entry makes the following entry's value the literal text
`,'â€™': ` by implicit string concatenation.  Entries are listed in dict
iteration order. -/
def mojibakeReplacements : List (Txt × Txt) :=
  [ ([cp 0xe2, cp 0x20ac, cp 0xa6], [cp 0x2026]),
    ([cp 0xe2, cp 0x20ac, cp 0x22], [cp 0x2014]),
    ([cp 0xe2, cp 0x20ac, cp 0x2dc],
      [cp 0x2c, cp 0x27, cp 0xe2, cp 0x20ac, cp 0x2122, cp 0x27, cp 0x3a, cp 0x20]),
    ([cp 0xe2, cp 0x20ac, cp 0x153], [cp 0x22]),
    ([cp 0xe2, cp 0x20ac], [cp 0x22]),
    ([cp 0xc2, cp 0xb7], [cp 0xb7]),
    ([cp 0xc2, cp 0xae], [cp 0xae]),
    ([cp 0xc2, cp 0xa9], [cp 0xa9]),
    ([cp 0xc2, cp 0xb0], [cp 0xb0]),
    ([cp 0xc2, cp 0xb1], [cp 0xb1]),
    ([cp 0xc2], [cp 0x20]) ]

/-- `main.py::_normalize_text`.  `unicodedata.normalize('NFKC', ·)` is an
external collaborator and is passed in as the opaque `nfkc`. -/
def normalize_text (nfkc : Txt → Txt) (s : Txt) : Txt :=
  let s1 := mojibakeReplacements.foldl (fun acc kv => pyReplace kv.1 kv.2 acc) (nfkc s)
  let s2 := pyReplace (txt "\r\n") (txt "\n") s1
  let s3 := pyReplace (txt "\r") (txt "\n") s2
  let s4 := List.intercalate (txt "\n")
    ((splitOnChar '\n' s3).map (fun line => List.intercalate (txt " ") (pySplitWs line)))
  pyStrip s4

/-! ### Retrieval merge and budget trim (`main.py::chat_with_patient`, steps 4) -/

/-- One retrieved chunk row `(chunk_id, report_id, chunk_text, source_metadata)`;
the metadata payload is opaque to the merge logic. -/
structure Chunk (mu : Type) where
  chunk_id : Int
  report_id : Int
  text : Txt
  meta : mu
deriving DecidableEq

/-- Dedup signature: the first 200 code points of the chunk text (`txt[:200]`). -/
def chunkSig {mu : Type} (c : Chunk mu) : Txt := c.text.take 200

/-- One iteration of the merge loop: skip when the signature was seen,
otherwise record the signature and append the chunk. -/
def mergeStep {mu : Type} (acc : List Txt × List (Chunk mu)) (c : Chunk mu) :
    List Txt × List (Chunk mu) :=
  if chunkSig c ∈ acc.1 then acc else (chunkSig c :: acc.1, acc.2 ++ [c])

/-- The merge of step 4: structured chunks, then keyword chunks, then
similarity chunks, one shared `seen` set. -/
def mergeChunks {mu : Type} (structured keyword similarity : List (Chunk mu)) :
    List (Chunk mu) :=
  ((structured ++ keyword ++ similarity).foldl mergeStep ([], [])).2

/-- Reference form of the merge loop for the proofs: first-occurrence
deduplication with an explicit seen-set accumulator. -/
def dedupAux {mu : Type} (seen : List Txt) : List (Chunk mu) → List (Chunk mu)
  | [] => []
  | c :: t =>
    if chunkSig c ∈ seen then dedupAux seen t
    else c :: dedupAux (chunkSig c :: seen) t

/-- The seen-set after processing a list of chunks. -/
def seenAfter {mu : Type} (seen : List Txt) : List (Chunk mu) → List Txt
  | [] => seen
  | c :: t =>
    if chunkSig c ∈ seen then seenAfter seen t
    else seenAfter (chunkSig c :: seen) t

/-- Total character count of a chunk list (`len(txt)` summed). -/
def sumLen {mu : Type} (l : List (Chunk mu)) : Nat :=
  (l.map (fun c => c.text.length)).sum

/-- The budget-trim loop: accumulate until adding the next chunk would
exceed the budget, then `break`. -/
def budgetTrimAux {mu : Type} (maxChars : Nat) (total : Nat) :
    List (Chunk mu) → List (Chunk mu)
  | [] => []
  | c :: t =>
    if total + c.text.length > maxChars then []
    else c :: budgetTrimAux maxChars (total + c.text.length) t

/-- Budget trim over the merged list (`payload.max_context_chars` is
pydantic-constrained to `500 ≤ · ≤ 60000`, so a `Nat` budget is faithful). -/
def budgetTrim {mu : Type} (maxChars : Nat) (l : List (Chunk mu)) : List (Chunk mu) :=
  budgetTrimAux maxChars 0 l

/-! ### Dates and the temporal safety filter (`parallel_prompts.py`) -/

/-- A calendar date as parsed by `datetime.strptime`. -/
structure YMD where
  y : Nat
  m : Nat
  d : Nat
deriving DecidableEq

/-- Order key; `datetime` comparison on dates is lexicographic on
(year, month, day), which this key encodes (month and day are `< 100`). -/
def ymdKey (x : YMD) : Nat := x.y * 10000 + x.m * 100 + x.d

/-- Gregorian leap year, as `datetime` uses it. -/
def isLeapYear (y : Nat) : Bool := y % 4 = 0 && (y % 100 ≠ 0 || y % 400 = 0)

/-- Days in a month, as `datetime` validates them. -/
def daysInMonth (y m : Nat) : Nat :=
  if m = 2 then (if isLeapYear y then 29 else 28)
  else if m = 4 || m = 6 || m = 9 || m = 11 then 30
  else 31

/-- Regex word character (`\w`), for the `\b` anchors of the date patterns. -/
def isWordChar (c : Char) : Bool := c.isAlphanum || c = '_'

/-- `\b` before the match: start of text or a non-word character. -/
def boundaryBefore : Option Char → Bool
  | none => true
  | some p => !isWordChar p

/-- `\b` after the match: end of text or a non-word character. -/
def boundaryAfter : Txt → Bool
  | [] => true
  | r :: _ => !isWordChar r

/-- Numeric value of a decimal digit character. -/
def digVal (c : Char) : Nat := c.toNat - '0'.toNat

/-- The month alternative `(0[1-9]|1[0-2])`. -/
def monthDigitsOk (a b : Char) : Bool :=
  (a = '0' && '1' ≤ b && b ≤ '9') || (a = '1' && '0' ≤ b && b ≤ '2')

/-- The day alternative `(0[1-9]|[12]\d|3[01])`. -/
def dayDigitsOk (a b : Char) : Bool :=
  (a = '0' && '1' ≤ b && b ≤ '9') || ((a = '1' || a = '2') && b.isDigit) ||
  (a = '3' && (b = '0' || b = '1'))

/-- Does `\b(20\d{2})-(0[1-9]|1[0-2])-(0[1-9]|[12]\d|3[01])\b` match at the
head of the text, with `prev` the character before it? -/
def isoRegexAt (prev : Option Char) : Txt → Bool
  | c0 :: c1 :: c2 :: c3 :: c4 :: c5 :: c6 :: c7 :: c8 :: c9 :: rest =>
    boundaryBefore prev && c0 = '2' && c1 = '0' && c2.isDigit && c3.isDigit &&
    c4 = '-' && monthDigitsOk c5 c6 && c7 = '-' && dayDigitsOk c8 c9 &&
    boundaryAfter rest
  | _ => false

/-- `datetime.strptime(m.group(0), "%Y-%m-%d")` on a matched window: the
regex already fixes the shape, so only calendar-day validity can fail. -/
def isoDateOf : Txt → Option YMD
  | c0 :: c1 :: c2 :: c3 :: _ :: c5 :: c6 :: _ :: c8 :: c9 :: _ =>
    let y := digVal c0 * 1000 + digVal c1 * 100 + digVal c2 * 10 + digVal c3
    let m := digVal c5 * 10 + digVal c6
    let d := digVal c8 * 10 + digVal c9
    if d ≤ daysInMonth y m then some ⟨y, m, d⟩ else none
  | _ => none

/-- Worker for `scanIso`, structurally recursive on a fuel counter. -/
def scanIsoFuel : Nat → Option Char → Txt → List YMD
  | _, _, [] => []
  | 0, _, _ => []
  | fuel + 1, prev, c :: t =>
    if isoRegexAt prev (c :: t) then
      match isoDateOf (c :: t) with
      | some d => d :: scanIsoFuel fuel ((c :: t).get? 9) ((c :: t).drop 10)
      | none => scanIsoFuel fuel ((c :: t).get? 9) ((c :: t).drop 10)
    else scanIsoFuel fuel (some c) t

/-- `re.finditer` scan for the ISO pattern: left to right, non-overlapping
(a match consumes its ten characters); windows whose `strptime` fails are
consumed but yield nothing.  The fuel (one unit per consumed character, so
the input length suffices) only makes the recursion structural. -/
def scanIso (prev : Option Char) (s : Txt) : List YMD := scanIsoFuel s.length prev s

/-- Does `\b(0[1-9]|1[0-2])/(0[1-9]|[12]\d|3[01])/(20\d{2})\b` match at the
head of the text? -/
def usRegexAt (prev : Option Char) : Txt → Bool
  | c0 :: c1 :: c2 :: c3 :: c4 :: c5 :: c6 :: c7 :: c8 :: c9 :: rest =>
    boundaryBefore prev && monthDigitsOk c0 c1 && c2 = '/' && dayDigitsOk c3 c4 &&
    c5 = '/' && c6 = '2' && c7 = '0' && c8.isDigit && c9.isDigit &&
    boundaryAfter rest
  | _ => false

/-- `datetime.strptime(m.group(0), "%m/%d/%Y")` on a matched window. -/
def usDateOf : Txt → Option YMD
  | c0 :: c1 :: _ :: c3 :: c4 :: _ :: c6 :: c7 :: c8 :: c9 :: _ =>
    let m := digVal c0 * 10 + digVal c1
    let d := digVal c3 * 10 + digVal c4
    let y := digVal c6 * 1000 + digVal c7 * 100 + digVal c8 * 10 + digVal c9
    if d ≤ daysInMonth y m then some ⟨y, m, d⟩ else none
  | _ => none

/-- Worker for `scanUs`, structurally recursive on a fuel counter. -/
def scanUsFuel : Nat → Option Char → Txt → List YMD
  | _, _, [] => []
  | 0, _, _ => []
  | fuel + 1, prev, c :: t =>
    if usRegexAt prev (c :: t) then
      match usDateOf (c :: t) with
      | some d => d :: scanUsFuel fuel ((c :: t).get? 9) ((c :: t).drop 10)
      | none => scanUsFuel fuel ((c :: t).get? 9) ((c :: t).drop 10)
    else scanUsFuel fuel (some c) t

/-- `re.finditer` scan for the US pattern (fuel as in `scanIso`). -/
def scanUs (prev : Option Char) (s : Txt) : List YMD := scanUsFuel s.length prev s

/-- `parallel_prompts.py::_extract_dates_from_text`: ISO matches then US
matches. -/
def extract_dates_from_text (s : Txt) : List YMD := scanIso none s ++ scanUs none s

/-- `parallel_prompts.py::_latest_context_date`: `max(dates)` if any. -/
def latest_context_date (s : Txt) : Option YMD :=
  match extract_dates_from_text s with
  | [] => none
  | d :: ds => some (ds.foldl (fun a b => if ymdKey a < ymdKey b then b else a) d)

/-- Keyword list of `_has_completion_keywords`. -/
def completionKeywords : List Txt :=
  [txt "completed", txt "done", txt "performed", txt "status: completed",
   txt "post-op", txt "postoperative", txt "received"]

/-- `parallel_prompts.py::_has_completion_keywords`. -/
def has_completion_keywords (s : Txt) : Bool :=
  completionKeywords.any (fun k => containsSub k (pyLower s))

/-- `parallel_prompts.py::_is_past_dated`. -/
def is_past_dated (s : Txt) (latest : Option YMD) : Bool :=
  match latest with
  | none => false
  | some l => (extract_dates_from_text s).any (fun d => ymdKey d < ymdKey l)

/-- The `is_duplicate` closure inside `_apply_temporal_safety_filters`:
case-insensitive mutual-substring test against the current-status bullets. -/
def is_plan_duplicate (status_lower : List Txt) (b : Txt) : Bool :=
  let bl := pyLower b
  status_lower.any (fun s => containsSub bl s || containsSub s bl)

/-- The substituted placeholder when filtering empties the plan. -/
def planPlaceholder : Txt := txt "Plan information not available"

/-- `parallel_prompts.py::_apply_temporal_safety_filters`. -/
def apply_temporal_safety_filters (plan current_status : List Txt) (context : Txt) :
    List Txt :=
  let latest := latest_context_date context
  let status_lower := current_status.map pyLower
  let safe := plan.foldl (fun acc b =>
    if b.isEmpty then acc
    else if has_completion_keywords b then acc
    else if is_past_dated b latest then acc
    else if is_plan_duplicate status_lower b then acc
    else acc ++ [b]) []
  if safe.isEmpty then [planPlaceholder] else safe.take 5

/-! ### Classification and universal extraction (`parallel_prompts.py`) -/

/-- Outcome of one generation call as seen by an extraction wrapper:
the awaited text, an `asyncio.TimeoutError`, or another exception. -/
inductive CallOutcome where
  | ok (text : Txt)
  | timeout
  | exc (msg : Txt)

/-- The warning sign `⚠️` (U+26A0 U+FE0F) used by the error sentinels. -/
def warnSign : Txt := [cp 0x26a0, cp 0xfe0f]

/-- The `'⚠️ Error:'` sentinel prefix returned by `_call_llm_async` failures. -/
def errorSignature : Txt := warnSign ++ txt " Error:"

/-- `result.startswith('⚠️ Error:')`. -/
def startsWithErr (s : Txt) : Bool := isPrefTxt errorSignature s

/-- The closed label set of `_classify_specialty`. -/
def knownSpecialties : List Txt := [txt "oncology", txt "speech", txt "general"]

/-- The normalization logic of `_classify_specialty` applied to the raw
response text (`result.lower().strip()`, exact-label check, substring
heuristics, default `general`). -/
def normalizeClassification (result : Txt) : Txt :=
  if startsWithErr result then txt "general"
  else
    let c := pyStrip (pyLower result)
    if c ∈ knownSpecialties then c
    else if containsSub (txt "oncology") c || containsSub (txt "cancer") c then txt "oncology"
    else if containsSub (txt "speech") c || containsSub (txt "audio") c then txt "speech"
    else txt "general"

/-- `parallel_prompts.py::_classify_specialty` over a call outcome
(timeouts and exceptions also yield `general`). -/
def classify_specialty : CallOutcome → Txt
  | .ok r => normalizeClassification r
  | .timeout => txt "general"
  | .exc _ => txt "general"

/-- The normalization rule exactly as the claim words it, for comparison
with `normalizeClassification`: an exact match to a known label is used
as-is; otherwise a label containing "cancer" maps to oncology and one
containing "audio" maps to speech; otherwise the result is general. -/
def claimNormalizeClassification (result : Txt) : Txt :=
  let c := pyStrip (pyLower result)
  if c ∈ knownSpecialties then c
  else if containsSub (txt "cancer") c then txt "oncology"
  else if containsSub (txt "audio") c then txt "speech"
  else txt "general"

/-- Append text to the last element of a list (`bullets[-1] += ...`). -/
def appendToLast : List Txt → Txt → List Txt
  | [], _ => []
  | [a], x => [a ++ x]
  | a :: rest, x => a :: appendToLast rest x

/-- One line of the bullet-parsing loop shared by `_extract_current_status`
and `_extract_plan`: `-` and `•` bullets start a new item, any other
(stripped, non-empty) line continues the previous bullet and is dropped if
no bullet has started yet. -/
def bulletStep (bullets : List Txt) (line : Txt) : List Txt :=
  if isPrefTxt ['-'] line then bullets ++ [pyStrip (line.drop 1)]
  else if isPrefTxt [cp 0x2022] line then bullets ++ [pyStrip (line.drop 1)]
  else match bullets with
       | [] => []
       | _ :: _ => appendToLast bullets (txt " " ++ line)

/-- The bullet parser: strip lines, drop blank ones, run the loop, keep at
most five bullets, substitute `fallback` when none were parsed. -/
def parseBullets (result : Txt) (fallback : Txt) : List Txt :=
  let lines := ((splitOnChar '\n' result).map pyStrip).filter (fun l => !l.isEmpty)
  let bullets := lines.foldl bulletStep []
  if bullets.isEmpty then [fallback] else bullets.take 5

/-- `parallel_prompts.py::_extract_evolution` (the handling around the
awaited call). -/
def extract_evolution : CallOutcome → Txt
  | .ok result =>
    if startsWithErr result then warnSign ++ txt " Unable to generate medical narrative. " ++ result
    else result
  | .timeout => warnSign ++ txt " Error: Narrative generation timed out."
  | .exc m => warnSign ++ txt " Error: " ++ m

/-- The fallback bullet of `_extract_current_status`. -/
def statusPlaceholder : Txt := txt "Status information not available"

/-- `parallel_prompts.py::_extract_current_status`. -/
def extract_current_status : CallOutcome → List Txt
  | .ok result =>
    if startsWithErr result then [warnSign ++ txt " Status extraction failed. " ++ result]
    else parseBullets result statusPlaceholder
  | .timeout => [warnSign ++ txt " Error: Status extraction timed out."]
  | .exc m => [warnSign ++ txt " Error: " ++ m]

/-- `parallel_prompts.py::_extract_plan`. -/
def extract_plan : CallOutcome → List Txt
  | .ok result =>
    if startsWithErr result then [warnSign ++ txt " Plan extraction failed. " ++ result]
    else parseBullets result planPlaceholder
  | .timeout => [warnSign ++ txt " Error: Plan extraction timed out."]
  | .exc m => [warnSign ++ txt " Error: " ++ m]

/-! ### Specialty JSON extraction and assembly (`parallel_prompts.py`) -/

/-- A JSON value, as produced by `json.loads` (numbers as rationals;
string-to-number coercions are not exercised by this pipeline). -/
inductive Json where
  | null : Json
  | bool (b : Bool) : Json
  | num (q : ℚ) : Json
  | str (s : Txt) : Json
  | arr (items : List Json) : Json
  | obj (fields : List (Txt × Json)) : Json

/-- Dictionary lookup (keys built by the pipeline are unique; first match). -/
def jLookup (k : Txt) : List (Txt × Json) → Option Json
  | [] => none
  | (k2, v) :: rest => if k2 = k then some v else jLookup k rest

/-- `result.find('{')` / `result.rfind('}')` / `result[start:end+1]`:
the candidate JSON substring, `none` when either character is absent. -/
def extractJsonCandidate (result : Txt) : Option Txt :=
  match pyFindChar '{' result, pyRfindChar '}' result with
  | some s, some e => some (pySlice result s (e + 1))
  | _, _ => none

/-- `parallel_prompts.py::_extract_oncology_data`: error sentinels, missing
braces, `json.loads` failures (the opaque `parse` returning `none`),
timeouts and exceptions all resolve to `none`. -/
def extract_oncology_data (parse : Txt → Option Json) : CallOutcome → Option Json
  | .ok result =>
    if startsWithErr result then none
    else match extractJsonCandidate result with
         | some js => parse js
         | none => none
  | .timeout => none
  | .exc _ => none

/-- `parallel_prompts.py::_extract_speech_data` (same recovery structure). -/
def extract_speech_data (parse : Txt → Option Json) : CallOutcome → Option Json
  | .ok result =>
    if startsWithErr result then none
    else match extractJsonCandidate result with
         | some js => parse js
         | none => none
  | .timeout => none
  | .exc _ => none

/-- The `universal` object assembled in step 4 of
`_generate_structured_summary_parallel`. -/
structure UniversalData where
  evolution : Txt
  current_status : List Txt
  plan : List Txt
deriving DecidableEq

/-- The `structured_response` dict of step 4. -/
structure StructuredResponse where
  universal : UniversalData
  oncology : Option Json
  speech : Option Json
  specialty : Txt
  generated_at : Txt

/-- Step 4 of `_generate_structured_summary_parallel`: temporal-safety
filtering of the plan and assembly of the response dict. -/
def assembleStructuredResponse (specialty evolution : Txt)
    (current_status plan : List Txt) (context generated_at : Txt)
    (specialty_data : Option Json) : StructuredResponse :=
  { universal := { evolution := evolution, current_status := current_status,
                   plan := apply_temporal_safety_filters plan current_status context }
    oncology := if specialty = txt "oncology" then specialty_data else none
    speech := if specialty = txt "speech" then specialty_data else none
    specialty := specialty
    generated_at := generated_at }

/-- Steps 1–4 of `_generate_structured_summary_parallel` over the outcomes
of the individual calls (`oc` classification, `o1`–`o3` the three universal
extractions, `osp` the conditional specialty extraction); `parse` is
`json.loads`. -/
def generate_structured_summary_parallel (parse : Txt → Option Json)
    (oc o1 o2 o3 osp : CallOutcome) (context generated_at : Txt) : StructuredResponse :=
  let specialty := classify_specialty oc
  let specialty_data :=
    if specialty = txt "oncology" then extract_oncology_data parse osp
    else if specialty = txt "speech" then extract_speech_data parse osp
    else none
  assembleStructuredResponse specialty (extract_evolution o1) (extract_current_status o2)
    (extract_plan o3) context generated_at specialty_data

/-! ### Schema validator (`schemas.py`), as pydantic v2 validates it.
String-to-number lax coercions are not modelled: the candidates built by
this pipeline carry proper JSON types for every numeric field. -/

/-- A `str` field: accepts exactly JSON strings. -/
def asTxt : Json → Option Txt
  | .str s => some s
  | _ => none

/-- Elementwise validation of a `List[str]` payload. -/
def asTxtList1 : List Json → Option (List Txt)
  | [] => some []
  | j :: t =>
    match asTxt j, asTxtList1 t with
    | some s, some r => some (s :: r)
    | _, _ => none

/-- A `List[str]` field. -/
def asTxtList : Json → Option (List Txt)
  | .arr l => asTxtList1 l
  | _ => none

/-- A `float` field. -/
def asRat : Json → Option ℚ
  | .num q => some q
  | _ => none

/-- An `int` field (pydantic accepts an integral float). -/
def asInt : Json → Option Int
  | .num q => if q.den = 1 then some q.num else none
  | _ => none

/-- A `bool` field. -/
def asBool : Json → Option Bool
  | .bool b => some b
  | _ => none

/-- A `Dict[str, Any]` field. -/
def asObj : Json → Option (List (Txt × Json))
  | .obj f => some f
  | _ => none

/-- An `Optional[T] = None` field: missing or `null` defaults to `None`,
anything present must validate as `T`. -/
def optField {α : Type} (f : Json → Option α) (fields : List (Txt × Json)) (k : Txt) :
    Option (Option α) :=
  match jLookup k fields with
  | none => some none
  | some Json.null => some none
  | some v => (f v).map some

/-- A required field (`Field(...)`): must be present and validate. -/
def reqField {α : Type} (f : Json → Option α) (fields : List (Txt × Json)) (k : Txt) :
    Option α :=
  (jLookup k fields).bind f

/-- A field with an alias under `populate_by_name = True`: the alias key is
consulted first, then the field name. -/
def optFieldAlias {α : Type} (f : Json → Option α) (fields : List (Txt × Json))
    (aliasKey nameKey : Txt) : Option (Option α) :=
  match jLookup aliasKey fields with
  | some Json.null => some none
  | some v => (f v).map some
  | none => optField f fields nameKey

/-- Validation of `schemas.UniversalData`: `evolution` is required
(`Field(...)`); `current_status` and `plan` are declared with
`default_factory=list`, so a missing key defaults to `[]` while a present
key must be a list of strings. -/
def validateUniversal : Json → Option UniversalData
  | .obj f =>
    match reqField asTxt f (txt "evolution"),
          (match jLookup (txt "current_status") f with
           | none => some []
           | some v => asTxtList v),
          (match jLookup (txt "plan") f with
           | none => some []
           | some v => asTxtList v) with
    | some ev, some cs, some pl => some ⟨ev, cs, pl⟩
    | _, _, _ => none
  | _ => none

/-- `schemas.TumorSizeMeasurement` (validated form). -/
structure TumorSizeMeasurement where
  date : Txt
  size_cm : ℚ
  location : Option Txt
  status : Option Txt
deriving DecidableEq

/-- The `validate_date_format` validator: `datetime.strptime` with
`%Y-%m-%d` on length-10 input or `%Y-%m` on length-7 input.  For those
fixed lengths `strptime` succeeds exactly on `YYYY-MM-DD` / `YYYY-MM`
shapes denoting a real calendar date with year ≥ 1. -/
def validDateTxt : Txt → Bool
  | [y1, y2, y3, y4, s1, m1, m2, s2, d1, d2] =>
    y1.isDigit && y2.isDigit && y3.isDigit && y4.isDigit && s1 = '-' &&
    m1.isDigit && m2.isDigit && s2 = '-' && d1.isDigit && d2.isDigit &&
    (let y := digVal y1 * 1000 + digVal y2 * 100 + digVal y3 * 10 + digVal y4
     let m := digVal m1 * 10 + digVal m2
     let d := digVal d1 * 10 + digVal d2
     decide (1 ≤ y) && decide (1 ≤ m) && decide (m ≤ 12) && decide (1 ≤ d) &&
     decide (d ≤ daysInMonth y m))
  | [y1, y2, y3, y4, s1, m1, m2] =>
    y1.isDigit && y2.isDigit && y3.isDigit && y4.isDigit && s1 = '-' &&
    m1.isDigit && m2.isDigit &&
    (let y := digVal y1 * 1000 + digVal y2 * 100 + digVal y3 * 10 + digVal y4
     let m := digVal m1 * 10 + digVal m2
     decide (1 ≤ y) && decide (1 ≤ m) && decide (m ≤ 12))
  | _ => false

/-- Validation of one `TumorSizeMeasurement`: `date` and `size_cm` required,
`size_cm ≥ 0` (`ge=0`), optional `location` and `status`. -/
def validateTumorMeasurement : Json → Option TumorSizeMeasurement
  | .obj f =>
    match reqField asTxt f (txt "date"), reqField asRat f (txt "size_cm"),
          optField asTxt f (txt "location"), optField asTxt f (txt "status") with
    | some dt, some sz, some loc, some st =>
      if validDateTxt dt && decide (0 ≤ sz) then some ⟨dt, sz, loc, st⟩ else none
    | _, _, _, _ => none
  | _ => none

/-- Elementwise validation of the `tumor_size_trend` array. -/
def tumorList1 : List Json → Option (List TumorSizeMeasurement)
  | [] => some []
  | j :: t =>
    match validateTumorMeasurement j, tumorList1 t with
    | some m, some r => some (m :: r)
    | _, _ => none

/-- `schemas.OncologyData` (validated form). -/
structure OncologyData where
  tumor_size_trend : List TumorSizeMeasurement
  tnm_staging : Option Txt
  cancer_type : Option Txt
  grade : Option Txt
  biomarkers : Option (List (Txt × Json))
  treatment_response : Option Txt
  pertinent_negatives : Option (List Txt)

/-- Validation of `schemas.OncologyData` (`tumor_size_trend` has
`default_factory=list`). -/
def validateOncology : Json → Option OncologyData
  | .obj f => do
    let tst ← match jLookup (txt "tumor_size_trend") f with
      | none => some []
      | some (Json.arr l) => tumorList1 l
      | some _ => none
    let tnm ← optField asTxt f (txt "tnm_staging")
    let ct ← optField asTxt f (txt "cancer_type")
    let gr ← optField asTxt f (txt "grade")
    let bio ← optField asObj f (txt "biomarkers")
    let tr ← optField asTxt f (txt "treatment_response")
    let pn ← optField asTxtList f (txt "pertinent_negatives")
    pure ⟨tst, tnm, ct, gr, bio, tr, pn⟩
  | _ => none

/-- `schemas.AudiogramFrequency` (validated form). -/
structure AudiogramFrequency where
  freq_500hz : Option ℚ
  freq_1000hz : Option ℚ
  freq_2000hz : Option ℚ
  freq_4000hz : Option ℚ
  freq_8000hz : Option ℚ
deriving DecidableEq

/-- Validation of `schemas.AudiogramFrequency` (aliases like `"500Hz"`
accepted alongside field names, `populate_by_name = True`). -/
def validateAudiogramFrequency : Json → Option AudiogramFrequency
  | .obj f => do
    let a ← optFieldAlias asRat f (txt "500Hz") (txt "freq_500hz")
    let b ← optFieldAlias asRat f (txt "1000Hz") (txt "freq_1000hz")
    let c ← optFieldAlias asRat f (txt "2000Hz") (txt "freq_2000hz")
    let d ← optFieldAlias asRat f (txt "4000Hz") (txt "freq_4000hz")
    let e ← optFieldAlias asRat f (txt "8000Hz") (txt "freq_8000hz")
    pure ⟨a, b, c, d, e⟩
  | _ => none

/-- `schemas.Audiogram` (validated form). -/
structure Audiogram where
  left : Option AudiogramFrequency
  right : Option AudiogramFrequency
  test_date : Option Txt
  status : Option Txt
deriving DecidableEq

/-- Validation of `schemas.Audiogram`. -/
def validateAudiogram : Json → Option Audiogram
  | .obj f => do
    let l ← optField validateAudiogramFrequency f (txt "left")
    let r ← optField validateAudiogramFrequency f (txt "right")
    let td ← optField asTxt f (txt "test_date")
    let st ← optField asTxt f (txt "status")
    pure ⟨l, r, td, st⟩
  | _ => none

/-- `schemas.SpeechScores` (validated form). -/
structure SpeechScores where
  srt_db : Option ℚ
  wrs_percent : Option ℚ
  mcl_db : Option ℚ
  ucl_db : Option ℚ
deriving DecidableEq

/-- Validation of `schemas.SpeechScores` (`srt_db ∈ [0,120]`,
`wrs_percent ∈ [0,100]`). -/
def validateSpeechScores : Json → Option SpeechScores
  | .obj f => do
    let srt ← optField asRat f (txt "srt_db")
    let wrs ← optField asRat f (txt "wrs_percent")
    let mcl ← optField asRat f (txt "mcl_db")
    let ucl ← optField asRat f (txt "ucl_db")
    if (match srt with | some v => decide (0 ≤ v ∧ v ≤ 120) | none => true) &&
       (match wrs with | some v => decide (0 ≤ v ∧ v ≤ 100) | none => true) then
      pure ⟨srt, wrs, mcl, ucl⟩
    else none
  | _ => none

/-- `schemas.SpeechData` (validated form). -/
structure SpeechData where
  audiogram : Option Audiogram
  speech_scores : Option SpeechScores
  hearing_loss_type : Option Txt
  hearing_loss_severity : Option Txt
  hearing_trend : Option Txt
  tinnitus : Option Bool
  balance_issues : Option Bool
  amplification : Option Txt
  pertinent_negatives : Option (List Txt)
deriving DecidableEq

/-- Validation of `schemas.SpeechData`. -/
def validateSpeech : Json → Option SpeechData
  | .obj f => do
    let au ← optField validateAudiogram f (txt "audiogram")
    let sc ← optField validateSpeechScores f (txt "speech_scores")
    let hlt ← optField asTxt f (txt "hearing_loss_type")
    let hls ← optField asTxt f (txt "hearing_loss_severity")
    let ht ← optField asTxt f (txt "hearing_trend")
    let ti ← optField asBool f (txt "tinnitus")
    let ba ← optField asBool f (txt "balance_issues")
    let am ← optField asTxt f (txt "amplification")
    let pn ← optField asTxtList f (txt "pertinent_negatives")
    pure ⟨au, sc, hlt, hls, ht, ti, ba, am, pn⟩
  | _ => none

/-- Elementwise validation of a `List[Dict[str, Any]]` payload. -/
def asObjList1 : List Json → Option (List (List (Txt × Json)))
  | [] => some []
  | j :: t =>
    match asObj j, asObjList1 t with
    | some o, some r => some (o :: r)
    | _, _ => none

/-- A `List[Dict[str, Any]]` field. -/
def asObjList : Json → Option (List (List (Txt × Json)))
  | .arr l => asObjList1 l
  | _ => none

/-- `schemas.CardiologyData` (validated form). -/
structure CardiologyData where
  ejection_fraction : Option ℚ
  nyha_class : Option Txt
  blood_pressure_trend : Option (List (List (Txt × Json)))
  ecg_findings : Option (List Txt)
  medications : Option (List Txt)

/-- Validation of `schemas.CardiologyData` (`ejection_fraction ∈ [0,100]`). -/
def validateCardiology : Json → Option CardiologyData
  | .obj f => do
    let ef ← optField asRat f (txt "ejection_fraction")
    if (match ef with | some v => decide (0 ≤ v ∧ v ≤ 100) | none => true) then do
      let ny ← optField asTxt f (txt "nyha_class")
      let bp ← optField asObjList f (txt "blood_pressure_trend")
      let ecg ← optField asTxtList f (txt "ecg_findings")
      let med ← optField asTxtList f (txt "medications")
      pure ⟨ef, ny, bp, ecg, med⟩
    else none
  | _ => none

/-- `schemas.AIResponseSchema` (validated form). -/
structure AIResponseSchema where
  universal : UniversalData
  oncology : Option OncologyData
  speech : Option SpeechData
  cardiology : Option CardiologyData
  generated_at : Option Txt
  patient_id : Option Int
  specialty : Option Txt

/-- `AIResponseSchema.model_validate`: `universal` is required, the three
specialty sections and the metadata fields are optional, unknown keys are
ignored (pydantic's default `extra='ignore'`), non-dict input is rejected. -/
def validateAIResponse : Json → Option AIResponseSchema
  | .obj f => do
    let u ← reqField validateUniversal f (txt "universal")
    let onc ← optField validateOncology f (txt "oncology")
    let sp ← optField validateSpeech f (txt "speech")
    let card ← optField validateCardiology f (txt "cardiology")
    let gat ← optField asTxt f (txt "generated_at")
    let pid ← optField asInt f (txt "patient_id")
    let spec ← optField asTxt f (txt "specialty")
    pure ⟨u, onc, sp, card, gat, pid, spec⟩
  | _ => none

/-! ### Oncology trend rule (`parallel_prompts.py::_extract_oncology_data`,
CRITICAL RULES block of the extraction prompt) -/

/-- The three trend buckets (the prompt labels the first bucket
"IMPROVING" / "PARTIAL RESPONSE" and the second
"WORSENING" / "PROGRESSIVE DISEASE"). -/
inductive TrendStatus where
  | improving
  | worsening
  | stable
deriving DecidableEq

/-- The per-point trend rule the extraction specifies: percentage change of
the current measurement versus the *first* measurement (the baseline),
`(current - first) / first × 100`; a reduction of at least 30% yields
improving/partial-response, an increase of at least 20% yields worsening,
anything else is stable (the prompt's residual "STABLE: <30% change"
description agrees with this reading on every input the first two rules
leave over). -/
def tumorTrendStatus (first current : ℚ) : TrendStatus :=
  let pct := (current - first) / first * 100
  if pct ≤ -30 then .improving
  else if 20 ≤ pct then .worsening
  else .stable

/-- Statuses of a chronologically ordered series of sizes: every point is
compared to the first element, not to its predecessor. -/
def tumorTrendStatuses (sizes : List ℚ) : List TrendStatus :=
  match sizes with
  | [] => []
  | first :: _ => sizes.map (fun s => tumorTrendStatus first s)

/-! ### Single-shot fallback ladder (`main.py::_generate_summary`,
`config.py`) -/

/-- `config.py::LLM_MODEL_NAME` with no environment overrides:
the default `llama3:8b`. -/
def LLM_MODEL_NAME : Txt := txt "llama3:8b"

/-- `config.py::FALLBACK_MODELS` with no environment overrides. -/
def FALLBACK_MODELS : List Txt :=
  [txt "qwen2.5:7b-instruct-q4_K_M", txt "qwen2.5:3b-instruct-q4_K_M",
   txt "llama3.2:3b-instruct-q4_K_M"]

/-- The context cap of `_generate_summary`. -/
def MAX_SAFE_CHARS : Nat := 18000

/-- The resource-exhaustion keywords matched against the lowercased error
text of the first attempt. -/
def resourceKeywords : List Txt :=
  [txt "cuda", txt "oom", txt "terminated", txt "memory"]

/-- `any(k in lower_err for k in ["cuda", "oom", "terminated", "memory"])`. -/
def isResourceErr (e : Txt) : Bool :=
  resourceKeywords.any (fun k => containsSub k (pyLower e))

/-- The `num_ctx` option `_try` passes: 4096 on the CPU-forced path,
8192 otherwise. -/
def tryNumCtx (useCpu : Bool) : Nat := if useCpu then 4096 else 8192

/-- The request timeout `_try` passes: 600s on the CPU-forced path,
300s otherwise. -/
def tryTimeoutSecs (useCpu : Bool) : Nat := if useCpu then 600 else 300

/-- One `_try` invocation: model name, prompt, CPU-forced flag. -/
structure Attempt where
  model : Txt
  prompt : Txt
  useCpu : Bool
deriving DecidableEq

/-- Result of one `_try` invocation. -/
inductive TryResult where
  | ok (text : Txt)
  | fail (err : Txt)

/-- The generation service as the ladder sees it. -/
abbrev TryFn := Attempt → TryResult

/-- The reduced last-resort prompt: `joined[-(MAX_SAFE_CHARS // 2):]`
substituted for the context.  The guard `"Context:\n{joined}" in prompt`
tests for that *literal* text (the source line is not an f-string), so the
`else` branch — a plain `prompt.replace(joined, reduced)` — is the one that
normally runs. -/
def reducedPromptOf (prompt joined : Txt) : Txt :=
  let reduced := pyTakeRight (MAX_SAFE_CHARS / 2) joined
  if containsSub (txt "Context:\n{joined}") prompt then
    pyReplace (txt "Context:\n" ++ joined) (txt "Context (Reduced Extract):\n" ++ reduced) prompt
  else pyReplace joined reduced prompt

/-- Note appended after a successful CPU-forced retry. -/
def cpuNote : Txt := txt "\n(Note: Generated using CPU due to GPU constraints.)"

/-- Note appended after a successful smaller-model retry. -/
def smallModelNote : Txt := txt "\n(Note: Smaller model used due to GPU memory constraints.)"

/-- Note appended after a successful reduced-context retry. -/
def reducedNote : Txt := txt "\n(Note: Context reduced due to GPU memory constraints.)"

/-- The `for fm in FALLBACK_MODELS` loop: returns the attempts made and the
first success, if any. -/
def tryFallbackModels (tryFn : TryFn) (prompt : Txt) : List Txt → List Attempt × Option Txt
  | [] => ([], none)
  | m :: ms =>
    match tryFn ⟨m, prompt, false⟩ with
    | .ok r => ([⟨m, prompt, false⟩], some r)
    | .fail _ =>
      let rest := tryFallbackModels tryFn prompt ms
      (⟨m, prompt, false⟩ :: rest.1, rest.2)

/-- `main.py::_generate_summary`, lines 600–630: the fallback ladder.
Returns the attempts actually made, in order, and the outcome (`Except.error`
models the raised `HTTPException` detail). -/
def generate_summary_ladder (tryFn : TryFn) (prompt joined : Txt) :
    List Attempt × Except Txt Txt :=
  match tryFn ⟨LLM_MODEL_NAME, prompt, false⟩ with
  | .ok out => ([⟨LLM_MODEL_NAME, prompt, false⟩], Except.ok out)
  | .fail e =>
    if isResourceErr e then
      match tryFn ⟨LLM_MODEL_NAME, prompt, true⟩ with
      | .ok r =>
        ([⟨LLM_MODEL_NAME, prompt, false⟩, ⟨LLM_MODEL_NAME, prompt, true⟩],
         Except.ok (r ++ cpuNote))
      | .fail _ =>
        match tryFallbackModels tryFn prompt FALLBACK_MODELS with
        | (tried, some r) =>
          ([⟨LLM_MODEL_NAME, prompt, false⟩, ⟨LLM_MODEL_NAME, prompt, true⟩] ++ tried,
           Except.ok (r ++ smallModelNote))
        | (tried, none) =>
          match tryFn ⟨LLM_MODEL_NAME, reducedPromptOf prompt joined, false⟩ with
          | .ok r =>
            ([⟨LLM_MODEL_NAME, prompt, false⟩, ⟨LLM_MODEL_NAME, prompt, true⟩] ++ tried ++
              [⟨LLM_MODEL_NAME, reducedPromptOf prompt joined, false⟩],
             Except.ok (r ++ reducedNote))
          | .fail _ =>
            ([⟨LLM_MODEL_NAME, prompt, false⟩, ⟨LLM_MODEL_NAME, prompt, true⟩] ++ tried ++
              [⟨LLM_MODEL_NAME, reducedPromptOf prompt joined, false⟩],
             Except.error (txt "Generation GPU error; all fallbacks failed: " ++ e))
    else ([⟨LLM_MODEL_NAME, prompt, false⟩], Except.error (txt "Generation error: " ++ e))

/-- Reference walker for the ladder proofs: try a list of
(attempt, success-note) rungs in order; first success wins, exhaustion
returns `dflt`. -/
def walkLadder (tryFn : TryFn) (dflt : Except Txt Txt) :
    List (Attempt × Txt) → List Attempt × Except Txt Txt
  | [] => ([], dflt)
  | (a, note) :: rest =>
    match tryFn a with
    | .ok r => ([a], Except.ok (r ++ note))
    | .fail _ =>
      let w := walkLadder tryFn dflt rest
      (a :: w.1, w.2)

/-- The rungs after the failed primary attempt, in the order the source
tries them: CPU-forced primary, each fallback model, reduced-context
primary. -/
def ladderTail (prompt joined : Txt) : List (Attempt × Txt) :=
  [(⟨LLM_MODEL_NAME, prompt, true⟩, cpuNote)] ++
  FALLBACK_MODELS.map (fun m => (⟨m, prompt, false⟩, smallModelNote)) ++
  [(⟨LLM_MODEL_NAME, reducedPromptOf prompt joined, false⟩, reducedNote)]

/-- The last-resort context as the claim words it: the context truncated to
its trailing half. -/
def claimReducedContext (joined : Txt) : Txt := pyTakeRight (joined.length / 2) joined

/-- Two adjacent whitespace code points somewhere in the text. -/
def hasAdjacentWs : Txt → Bool
  | a :: b :: t => (isPyWs a && isPyWs b) || hasAdjacentWs (b :: t)
  | _ => false

/-- A well-formed output line: whitespace-free ends, no two adjacent
whitespace characters, and every whitespace character a single plain
space. -/
def lineGood (l : Txt) : Prop :=
  (∀ c, l.head? = some c → isPyWs c = false) ∧
  (∀ c, l.getLast? = some c → isPyWs c = false) ∧
  hasAdjacentWs l = false ∧
  (∀ c ∈ l, isPyWs c = false ∨ c = ' ')

/-! ## Theorems -/

/-- Claim C9 (confirmed): for a chronologically ordered measurement series,
every point's trend status is computed against the *first* measurement
(the baseline), not its predecessor; with baseline `first > 0`, a reduction
of at least 30% versus baseline (`s ≤ 0.7·first`) yields
improving/partial-response, an increase of at least 20% (`s ≥ 1.2·first`)
yields worsening, and anything in between yields stable; in particular for
sizes `[3.2, 0.9]` the second point is improving/partial-response. -/
theorem C9_trend_vs_baseline (first : ℚ) (rest : List ℚ) (hf : 0 < first) :
    tumorTrendStatuses (first :: rest) = (first :: rest).map (fun s => tumorTrendStatus first s)
    ∧ (∀ s : ℚ,
        (s ≤ 7 / 10 * first → tumorTrendStatus first s = TrendStatus.improving)
        ∧ (6 / 5 * first ≤ s → tumorTrendStatus first s = TrendStatus.worsening)
        ∧ (7 / 10 * first < s → s < 6 / 5 * first → tumorTrendStatus first s = TrendStatus.stable))
    ∧ tumorTrendStatuses [16 / 5, 9 / 10] = [TrendStatus.stable, TrendStatus.improving] := by
  refine ⟨rfl, ?_, by norm_num [tumorTrendStatuses, tumorTrendStatus]⟩
  intro s
  refine ⟨?_, ?_, ?_⟩
  · intro h
    have hcond : (s - first) / first * 100 ≤ -30 := by
      rw [div_mul_eq_mul_div, div_le_iff₀ hf]
      nlinarith
    simp [tumorTrendStatus, hcond]
  · intro h
    have h1 : ¬((s - first) / first * 100 ≤ -30) := by
      rw [div_mul_eq_mul_div, div_le_iff₀ hf]
      intro hc
      nlinarith
    have h2 : (20 : ℚ) ≤ (s - first) / first * 100 := by
      rw [div_mul_eq_mul_div, le_div_iff₀ hf]
      nlinarith
    simp [tumorTrendStatus, h1, h2]
  · intro hlo hhi
    have h1 : ¬((s - first) / first * 100 ≤ -30) := by
      rw [div_mul_eq_mul_div, div_le_iff₀ hf]
      intro hc
      nlinarith
    have h2 : ¬((20 : ℚ) ≤ (s - first) / first * 100) := by
      rw [div_mul_eq_mul_div, le_div_iff₀ hf]
      intro hc
      nlinarith
    simp [tumorTrendStatus, h1, h2]

/-- Witness for C9 at the spec's concrete series `[3.2, 0.9]`. -/
theorem C9_witness :
    tumorTrendStatus (16 / 5) (9 / 10) = TrendStatus.improving :=
  ((C9_trend_vs_baseline (16 / 5) [9 / 10] (by norm_num)).2.1 (9 / 10)).1 (by norm_num)

/-- Counterexample for C6: the label `"oncology results"` is not an exact
match to a known label and contains neither `"cancer"` nor `"audio"`, so
the claim's rule sends it to `general`; the code's normalization (which
also applies an `"oncology"`-substring heuristic) returns `oncology`. -/
theorem C6_counterexample :
    normalizeClassification (txt "oncology results") = txt "oncology"
    ∧ claimNormalizeClassification (txt "oncology results") = txt "general"
    ∧ normalizeClassification (txt "oncology results") ≠
        claimNormalizeClassification (txt "oncology results")
    ∧ containsSub (txt "cancer") (pyStrip (pyLower (txt "oncology results"))) = false
    ∧ containsSub (txt "audio") (pyStrip (pyLower (txt "oncology results"))) = false
    ∧ pyStrip (pyLower (txt "oncology results")) ∉ knownSpecialties := by
  decide

/-- Claim C6 (corrected): the code lowercases and strips the raw label,
uses an exact match to a known label as-is, and otherwise applies substring
heuristics — but those heuristics also test for the substrings `"oncology"`
(before `"cancer"`, both mapping to oncology) and `"speech"` (before
`"audio"`, both mapping to speech); only labels matching none of the four
substrings fall back to `general`.  `"Oncology."` still normalizes to
`oncology` (via the `"oncology"` substring, not via `"cancer"`). -/
theorem C6_normalization (result : Txt) :
    (∀ lab ∈ knownSpecialties, normalizeClassification lab = lab)
    ∧ (startsWithErr result = true → normalizeClassification result = txt "general")
    ∧ (startsWithErr result = false → pyStrip (pyLower result) ∈ knownSpecialties →
        normalizeClassification result = pyStrip (pyLower result))
    ∧ (startsWithErr result = false → pyStrip (pyLower result) ∉ knownSpecialties →
        (containsSub (txt "oncology") (pyStrip (pyLower result)) ||
         containsSub (txt "cancer") (pyStrip (pyLower result))) = true →
        normalizeClassification result = txt "oncology")
    ∧ (startsWithErr result = false → pyStrip (pyLower result) ∉ knownSpecialties →
        (containsSub (txt "oncology") (pyStrip (pyLower result)) ||
         containsSub (txt "cancer") (pyStrip (pyLower result))) = false →
        (containsSub (txt "speech") (pyStrip (pyLower result)) ||
         containsSub (txt "audio") (pyStrip (pyLower result))) = true →
        normalizeClassification result = txt "speech")
    ∧ (startsWithErr result = false → pyStrip (pyLower result) ∉ knownSpecialties →
        (containsSub (txt "oncology") (pyStrip (pyLower result)) ||
         containsSub (txt "cancer") (pyStrip (pyLower result))) = false →
        (containsSub (txt "speech") (pyStrip (pyLower result)) ||
         containsSub (txt "audio") (pyStrip (pyLower result))) = false →
        normalizeClassification result = txt "general")
    ∧ normalizeClassification (txt "Oncology.") = txt "oncology" := by
  refine ⟨?_, ?_, ?_, ?_, ?_, ?_, by decide⟩
  · intro lab hl
    simp only [knownSpecialties, List.mem_cons, List.not_mem_nil, or_false] at hl
    rcases hl with h | h | h <;> subst h <;> decide
  · intro h
    simp [normalizeClassification, h]
  · intro h1 h2
    simp [normalizeClassification, h1, h2]
  · intro h1 h2 h3
    simp [normalizeClassification, h1, h2, h3]
  · intro h1 h2 h3 h4
    simp [normalizeClassification, h1, h2, h3, h4]
  · intro h1 h2 h3 h4
    simp [normalizeClassification, h1, h2, h3, h4]

/-- Witness for C6 at `"ONCOLOGY "` (exact match after lower/strip). -/
theorem C6_witness :
    normalizeClassification (txt "ONCOLOGY ") = pyStrip (pyLower (txt "ONCOLOGY "))
    ∧ pyStrip (pyLower (txt "ONCOLOGY ")) = txt "oncology" :=
  ⟨(C6_normalization (txt "ONCOLOGY ")).2.2.1 (by decide) (by decide), by decide⟩

/-- Claim C3 (confirmed): the orchestrator takes the substring from the
first `{` to the last `}` of the raw specialty response and JSON-parses it;
a missing brace or a parse failure yields `none` for the specialty section,
and the assembled response still carries all three universal fields. -/
theorem C3_specialty_parse_failure (parse : Txt → Option Json) (result : Txt)
    (oc o1 o2 o3 osp : CallOutcome) (context generated_at : Txt) :
    (pyFindChar '{' result = none ∨ pyRfindChar '}' result = none →
      extract_oncology_data parse (CallOutcome.ok result) = none)
    ∧ (∀ s e, pyFindChar '{' result = some s → pyRfindChar '}' result = some e →
      extractJsonCandidate result = some (pySlice result s (e + 1)))
    ∧ (∀ js, extractJsonCandidate result = some js → parse js = none →
      extract_oncology_data parse (CallOutcome.ok result) = none)
    ∧ ((generate_structured_summary_parallel parse oc o1 o2 o3 osp context
          generated_at).universal.evolution = extract_evolution o1
       ∧ (generate_structured_summary_parallel parse oc o1 o2 o3 osp context
          generated_at).universal.current_status = extract_current_status o2
       ∧ (generate_structured_summary_parallel parse oc o1 o2 o3 osp context
          generated_at).universal.plan =
           apply_temporal_safety_filters (extract_plan o3) (extract_current_status o2) context)
    ∧ (classify_specialty oc = txt "oncology" → extract_oncology_data parse osp = none →
        (generate_structured_summary_parallel parse oc o1 o2 o3 osp context
          generated_at).oncology = none) := by
  refine ⟨?_, ?_, ?_, ⟨rfl, rfl, rfl⟩, ?_⟩
  · intro h
    cases hsw : startsWithErr result <;>
      rcases h with h1 | h1 <;>
        simp [extract_oncology_data, extractJsonCandidate, hsw, h1]
  · intro s e hs he
    simp [extractJsonCandidate, hs, he]
  · intro js hjs hp
    cases hsw : startsWithErr result <;>
      simp [extract_oncology_data, hsw, hjs, hp]
  · intro hc hn
    simp [generate_structured_summary_parallel, assembleStructuredResponse, hc, hn]

/-- Witness for C3: a response with no braces yields `none`. -/
theorem C3_witness :
    pyFindChar '{' (txt "no json here") = none
    ∧ extract_oncology_data (fun _ => none) (CallOutcome.ok (txt "no json here")) = none :=
  ⟨by decide,
   (C3_specialty_parse_failure (fun _ => none) (txt "no json here") CallOutcome.timeout
      CallOutcome.timeout CallOutcome.timeout CallOutcome.timeout CallOutcome.timeout
      (txt "") (txt "")).1 (Or.inl (by decide))⟩

/-- The budget-trim loop, characterized: starting from a running total
within budget, the result is a prefix `take k`, the accumulated total stays
within budget, and if the loop stopped early the very next chunk would have
exceeded the budget. -/
theorem budgetTrimAux_spec {mu : Type} (maxChars : Nat) :
    ∀ (l : List (Chunk mu)) (total : Nat), total ≤ maxChars →
      ∃ k, budgetTrimAux maxChars total l = l.take k ∧ k ≤ l.length ∧
        total + sumLen (l.take k) ≤ maxChars ∧
        (∀ hk : k < l.length, total + sumLen (l.take k) + (l.get ⟨k, hk⟩).text.length > maxChars) := by
  intro l
  induction l with
  | nil =>
    intro total h
    refine ⟨0, rfl, by simp, by simpa [sumLen], ?_⟩
    intro hk
    simp at hk
  | cons c t ih =>
    intro total h
    by_cases hc : total + c.text.length > maxChars
    · refine ⟨0, ?_, by simp, by simpa [sumLen], ?_⟩
      · simp [budgetTrimAux, hc]
      · intro hk
        simpa [sumLen] using hc
    · obtain ⟨k, hk1, hk2, hk3, hk4⟩ := ih (total + c.text.length) (by omega)
      refine ⟨k + 1, ?_, by simpa using hk2, ?_, ?_⟩
      · simp [budgetTrimAux, hc, hk1]
      · simp only [List.take_succ_cons, sumLen, List.map_cons, List.sum_cons]
        simp only [sumLen] at hk3
        omega
      · intro hkk
        have hlt : k < t.length := by simpa using hkk
        have h4 := hk4 hlt
        simp only [List.take_succ_cons, sumLen, List.map_cons, List.sum_cons, List.get_cons_succ]
        simp only [sumLen] at h4
        omega

/-- Claim C2 (confirmed): the budget trim walks the merged list in order
and stops at the first fragment whose addition would exceed the budget: the
result is a prefix of the merged list, its total character count never
exceeds `max_context_chars`, the next candidate (when one exists) would
have pushed the total over the budget, and every retained fragment is an
unmodified element of the merged list (included whole or not at all). -/
theorem C2_budget_trim {mu : Type} (merged : List (Chunk mu)) (maxChars : Nat) :
    ∃ k, budgetTrim maxChars merged = merged.take k
      ∧ sumLen (merged.take k) ≤ maxChars
      ∧ (∀ hk : k < merged.length, sumLen (merged.take k) + (merged.get ⟨k, hk⟩).text.length > maxChars)
      ∧ (∀ c, c ∈ budgetTrim maxChars merged → c ∈ merged) := by
  obtain ⟨k, h1, _, h3, h4⟩ := budgetTrimAux_spec maxChars merged 0 (Nat.zero_le _)
  refine ⟨k, h1, by simpa using h3, ?_, ?_⟩
  · intro hk
    have := h4 hk
    omega
  · intro c hc
    rw [budgetTrim] at hc
    rw [h1] at hc
    exact List.mem_of_mem_take hc

/-- Witness for C2 on a concrete two-chunk list and budget 5. -/
theorem C2_witness :
    budgetTrim 5 [(⟨1, 1, txt "aaaa", 0⟩ : Chunk Nat), ⟨2, 1, txt "bbb", 0⟩] =
      [(⟨1, 1, txt "aaaa", 0⟩ : Chunk Nat)]
    ∧ sumLen (budgetTrim 5 [(⟨1, 1, txt "aaaa", 0⟩ : Chunk Nat), ⟨2, 1, txt "bbb", 0⟩]) ≤ 5 := by
  obtain ⟨k, h1, h2, h3, h4⟩ :=
    C2_budget_trim [(⟨1, 1, txt "aaaa", 0⟩ : Chunk Nat), ⟨2, 1, txt "bbb", 0⟩] 5
  refine ⟨by decide, ?_⟩
  rw [budgetTrim] at h1 ⊢
  rw [h1]
  exact h2

/-- Counterexample for C4: with exactly one universal call failing (the
evolution call times out; current-status and plan succeed), the value
produced by the plan call — a bullet containing completion language — does
not appear unchanged in the assembled summary: the always-on temporal
safety filter replaces it with the placeholder. -/
theorem C4_counterexample :
    extract_plan (CallOutcome.ok (txt "- Chemotherapy completed")) = [txt "Chemotherapy completed"]
    ∧ extract_evolution CallOutcome.timeout =
        warnSign ++ txt " Error: Narrative generation timed out."
    ∧ (generate_structured_summary_parallel (fun _ => none) (CallOutcome.ok (txt "general"))
        CallOutcome.timeout (CallOutcome.ok (txt "- Stable condition"))
        (CallOutcome.ok (txt "- Chemotherapy completed")) CallOutcome.timeout
        (txt "") (txt "t")).universal.plan = [planPlaceholder]
    ∧ [planPlaceholder] ≠ [txt "Chemotherapy completed"] := by
  decide

/-- Claim C4 (corrected): each of the three universal extraction calls has
its own error boundary — a timeout or exception in one call produces that
field's documented degraded placeholder, and each extraction result is a
function of its own call's outcome only, so a failure never aborts or
alters a sibling call's result; the evolution and current-status fields
appear verbatim in the assembled summary, but the plan field always appears
as the temporal-safety-filtered version of the plan call's result, filtered
against whatever current-status list resulted — so a current-status failure
can change which plan bullets survive, and filtering can drop plan bullets
even when the plan call itself succeeded. -/
theorem C4_independent_failure (parse : Txt → Option Json) (oc o1 o2 o3 osp : CallOutcome)
    (context generated_at : Txt) :
    ((generate_structured_summary_parallel parse oc o1 o2 o3 osp context
        generated_at).universal.evolution = extract_evolution o1)
    ∧ ((generate_structured_summary_parallel parse oc o1 o2 o3 osp context
        generated_at).universal.current_status = extract_current_status o2)
    ∧ ((generate_structured_summary_parallel parse oc o1 o2 o3 osp context
        generated_at).universal.plan =
        apply_temporal_safety_filters (extract_plan o3) (extract_current_status o2) context)
    ∧ (o1 = CallOutcome.timeout →
        extract_evolution o1 = warnSign ++ txt " Error: Narrative generation timed out.")
    ∧ (∀ m, o1 = CallOutcome.exc m → extract_evolution o1 = warnSign ++ txt " Error: " ++ m)
    ∧ (o2 = CallOutcome.timeout →
        extract_current_status o2 = [warnSign ++ txt " Error: Status extraction timed out."])
    ∧ (∀ m, o2 = CallOutcome.exc m → extract_current_status o2 = [warnSign ++ txt " Error: " ++ m])
    ∧ (o3 = CallOutcome.timeout →
        extract_plan o3 = [warnSign ++ txt " Error: Plan extraction timed out."])
    ∧ (∀ m, o3 = CallOutcome.exc m → extract_plan o3 = [warnSign ++ txt " Error: " ++ m])
    ∧ (∀ o1', (generate_structured_summary_parallel parse oc o1' o2 o3 osp context
          generated_at).universal.current_status =
          (generate_structured_summary_parallel parse oc o1 o2 o3 osp context
          generated_at).universal.current_status
        ∧ (generate_structured_summary_parallel parse oc o1' o2 o3 osp context
          generated_at).universal.plan =
          (generate_structured_summary_parallel parse oc o1 o2 o3 osp context
          generated_at).universal.plan)
    ∧ (∀ o3', (generate_structured_summary_parallel parse oc o1 o2 o3' osp context
          generated_at).universal.evolution =
          (generate_structured_summary_parallel parse oc o1 o2 o3 osp context
          generated_at).universal.evolution
        ∧ (generate_structured_summary_parallel parse oc o1 o2 o3' osp context
          generated_at).universal.current_status =
          (generate_structured_summary_parallel parse oc o1 o2 o3 osp context
          generated_at).universal.current_status)
    ∧ (∀ o2', (generate_structured_summary_parallel parse oc o1 o2' o3 osp context
          generated_at).universal.evolution =
          (generate_structured_summary_parallel parse oc o1 o2 o3 osp context
          generated_at).universal.evolution) := by
  refine ⟨rfl, rfl, rfl, ?_, ?_, ?_, ?_, ?_, ?_,
    fun o1' => ⟨rfl, rfl⟩, fun o3' => ⟨rfl, rfl⟩, fun o2' => rfl⟩
  · intro h; subst h; rfl
  · intro m h; subst h; rfl
  · intro h; subst h; rfl
  · intro m h; subst h; rfl
  · intro h; subst h; rfl
  · intro m h; subst h; rfl

/-- Witness for C4: evolution times out, siblings succeed; the evolution
field carries the timeout placeholder and current-status carries the
sibling's own result. -/
theorem C4_witness :
    (generate_structured_summary_parallel (fun _ => none) (CallOutcome.ok (txt "general"))
      CallOutcome.timeout (CallOutcome.ok (txt "- Stable")) (CallOutcome.ok (txt "- Follow up"))
      CallOutcome.timeout (txt "") (txt "t")).universal.evolution =
      warnSign ++ txt " Error: Narrative generation timed out."
    ∧ (generate_structured_summary_parallel (fun _ => none) (CallOutcome.ok (txt "general"))
      CallOutcome.timeout (CallOutcome.ok (txt "- Stable")) (CallOutcome.ok (txt "- Follow up"))
      CallOutcome.timeout (txt "") (txt "t")).universal.current_status =
      extract_current_status (CallOutcome.ok (txt "- Stable")) := by
  have h := C4_independent_failure (fun _ => none) (CallOutcome.ok (txt "general"))
    CallOutcome.timeout (CallOutcome.ok (txt "- Stable")) (CallOutcome.ok (txt "- Follow up"))
    CallOutcome.timeout (txt "") (txt "t")
  exact ⟨h.1.trans (h.2.2.2.1 rfl), h.2.1⟩

/-- The filtering loop of `_apply_temporal_safety_filters` equals a
declarative `filter` over the four discard conditions. -/
theorem tsf_fold (latest : Option YMD) (status_lower : List Txt) :
    ∀ (l : List Txt) (acc : List Txt),
      l.foldl (fun acc b =>
        if b.isEmpty then acc
        else if has_completion_keywords b then acc
        else if is_past_dated b latest then acc
        else if is_plan_duplicate status_lower b then acc
        else acc ++ [b]) acc
      = acc ++ l.filter (fun b => !b.isEmpty && !has_completion_keywords b &&
          !is_past_dated b latest && !is_plan_duplicate status_lower b) := by
  intro l
  induction l with
  | nil => intro acc; simp
  | cons b t ih =>
    intro acc
    simp only [List.foldl_cons, List.filter_cons]
    have hstep : (if b.isEmpty then acc
        else if has_completion_keywords b then acc
        else if is_past_dated b latest then acc
        else if is_plan_duplicate status_lower b then acc
        else acc ++ [b]) =
        (if (!b.isEmpty && !has_completion_keywords b && !is_past_dated b latest &&
             !is_plan_duplicate status_lower b) then acc ++ [b] else acc) := by
      cases h1 : b.isEmpty <;> cases h2 : has_completion_keywords b <;>
        cases h3 : is_past_dated b latest <;> cases h4 : is_plan_duplicate status_lower b <;>
          simp [h1, h2, h3, h4]
    rw [hstep, ih]
    cases hcond : (!b.isEmpty && !has_completion_keywords b && !is_past_dated b latest &&
        !is_plan_duplicate status_lower b) <;> simp

/-- Claim C5 (confirmed): the temporal-safety filter discards exactly the
plan bullets that are empty, contain completion language, contain a date
earlier than the latest date found anywhere in the context, or duplicate a
current-status bullet (case-insensitive mutual substring); the survivors
are kept in order (capped at five), and if nothing survives the result is
the one-element placeholder list — never the empty list. -/
theorem C5_temporal_filter (plan current_status : List Txt) (context : Txt) :
    (apply_temporal_safety_filters plan current_status context =
      (if (plan.filter (fun b => !b.isEmpty && !has_completion_keywords b &&
            !is_past_dated b (latest_context_date context) &&
            !is_plan_duplicate (current_status.map pyLower) b)).isEmpty
       then [planPlaceholder]
       else (plan.filter (fun b => !b.isEmpty && !has_completion_keywords b &&
            !is_past_dated b (latest_context_date context) &&
            !is_plan_duplicate (current_status.map pyLower) b)).take 5))
    ∧ apply_temporal_safety_filters plan current_status context ≠ [] := by
  have hf := tsf_fold (latest_context_date context) (current_status.map pyLower) plan []
  have heq : apply_temporal_safety_filters plan current_status context =
      (if (plan.filter (fun b => !b.isEmpty && !has_completion_keywords b &&
            !is_past_dated b (latest_context_date context) &&
            !is_plan_duplicate (current_status.map pyLower) b)).isEmpty
       then [planPlaceholder]
       else (plan.filter (fun b => !b.isEmpty && !has_completion_keywords b &&
            !is_past_dated b (latest_context_date context) &&
            !is_plan_duplicate (current_status.map pyLower) b)).take 5) := by
    simp only [apply_temporal_safety_filters]
    rw [hf]
    simp
  refine ⟨heq, ?_⟩
  rw [heq]
  cases hk : plan.filter (fun b => !b.isEmpty && !has_completion_keywords b &&
      !is_past_dated b (latest_context_date context) &&
      !is_plan_duplicate (current_status.map pyLower) b) with
  | nil => simp
  | cons a t => simp

/-- Witness for C5 at the spec's scenario: one duplicate of a
current-status bullet, one completed item, one past-dated item — all three
are discarded and the placeholder is substituted. -/
theorem C5_witness :
    apply_temporal_safety_filters
      [txt "Continue chemotherapy", txt "Surgery completed", txt "Follow-up on 2024-01-05"]
      [txt "Continue chemotherapy"]
      (txt "Latest report 2024-03-10. Prior scan 2024-01-05.") = [planPlaceholder] :=
  ((C5_temporal_filter
      [txt "Continue chemotherapy", txt "Surgery completed", txt "Follow-up on 2024-01-05"]
      [txt "Continue chemotherapy"]
      (txt "Latest report 2024-03-10. Prior scan 2024-01-05.")).1).trans (by decide)

/-- Counterexample for C8: a candidate whose `universal` object contains
only `evolution` — with both `current_status` and `plan` keys absent — is
accepted by the validator (the missing lists default to `[]`), not
rejected as the claim states. -/
theorem C8_counterexample :
    validateAIResponse (Json.obj [(txt "universal",
        Json.obj [(txt "evolution", Json.str (txt "x"))])]) =
      some ⟨⟨txt "x", [], []⟩, none, none, none, none, none, none⟩
    ∧ jLookup (txt "current_status") [(txt "evolution", Json.str (txt "x"))] = none
    ∧ jLookup (txt "plan") [(txt "evolution", Json.str (txt "x"))] = none :=
  ⟨rfl, rfl, rfl⟩

/-- Claim C8 (corrected): the validator accepts a candidate only if it is
an object with a `universal` object that validates; inside `universal` the
key `evolution` is required and must be a string — a missing or non-string
`evolution` is a validation error — but `current_status` and `plan` are
declared with `default_factory=list`: a missing key defaults to the empty
list rather than being rejected, while a present key must be a list of
strings (which may be empty). -/
theorem C8_schema_universal (j : Json) (f : List (Txt × Json)) :
    (∀ r, validateAIResponse j = some r →
      ∃ fl uj, j = Json.obj fl ∧ jLookup (txt "universal") fl = some uj ∧
        validateUniversal uj = some r.universal)
    ∧ (jLookup (txt "evolution") f = none → validateUniversal (Json.obj f) = none)
    ∧ (∀ v, jLookup (txt "evolution") f = some v → asTxt v = none →
        validateUniversal (Json.obj f) = none)
    ∧ (∀ ev, jLookup (txt "evolution") f = some (Json.str ev) →
        jLookup (txt "current_status") f = none → jLookup (txt "plan") f = none →
        validateUniversal (Json.obj f) = some ⟨ev, [], []⟩)
    ∧ (∀ v, jLookup (txt "current_status") f = some v → asTxtList v = none →
        validateUniversal (Json.obj f) = none)
    ∧ (∀ ev, jLookup (txt "evolution") f = some (Json.str ev) →
        jLookup (txt "current_status") f = some (Json.arr []) →
        jLookup (txt "plan") f = some (Json.arr []) →
        validateUniversal (Json.obj f) = some ⟨ev, [], []⟩) := by
  refine ⟨?_, ?_, ?_, ?_, ?_, ?_⟩
  · intro r h
    cases j with
    | obj fl =>
      cases hu : jLookup (txt "universal") fl with
      | none => simp [validateAIResponse, reqField, hu] at h
      | some uj =>
        cases hv : validateUniversal uj with
        | none => simp [validateAIResponse, reqField, hu, hv] at h
        | some u =>
          refine ⟨fl, uj, rfl, hu, ?_⟩
          rw [hv]
          cases honc : optField validateOncology fl (txt "oncology") <;>
            cases hsp : optField validateSpeech fl (txt "speech") <;>
              cases hcard : optField validateCardiology fl (txt "cardiology") <;>
                cases hgat : optField asTxt fl (txt "generated_at") <;>
                  cases hpid : optField asInt fl (txt "patient_id") <;>
                    cases hspec : optField asTxt fl (txt "specialty") <;>
                      simp [validateAIResponse, reqField, hu, hv, honc, hsp, hcard,
                        hgat, hpid, hspec] at h <;>
                        (rw [← h]; try rfl)
    | null => simp [validateAIResponse] at h
    | bool b => simp [validateAIResponse] at h
    | num q => simp [validateAIResponse] at h
    | str s => simp [validateAIResponse] at h
    | arr l => simp [validateAIResponse] at h
  · intro h
    simp [validateUniversal, reqField, h]
  · intro v hv ha
    simp [validateUniversal, reqField, hv, ha]
  · intro ev h1 h2 h3
    simp [validateUniversal, reqField, h1, h2, h3, asTxt]
  · intro v hv ha
    cases he : jLookup (txt "evolution") f with
    | none => simp [validateUniversal, reqField, he]
    | some w =>
      cases hw : asTxt w with
      | none => simp [validateUniversal, reqField, he, hw]
      | some ev => simp [validateUniversal, reqField, he, hw, hv, ha]
  · intro ev h1 h2 h3
    simp [validateUniversal, reqField, h1, h2, h3, asTxt, asTxtList, asTxtList1]

/-- Witness for C8: a universal object with only `evolution` validates,
with both lists defaulted to `[]`. -/
theorem C8_witness :
    validateUniversal (Json.obj [(txt "evolution", Json.str (txt "ok"))]) =
      some ⟨txt "ok", [], []⟩ :=
  (C8_schema_universal Json.null [(txt "evolution", Json.str (txt "ok"))]).2.2.2.1
    (txt "ok") rfl rfl rfl

/-- The fallback-model loop is the in-order walk of its rungs, with the
reduced-context rung after them. -/
theorem walk_fallbacks (tryFn : TryFn) (dflt : Except Txt Txt) (prompt : Txt)
    (aR : Attempt) :
    ∀ ms : List Txt,
      walkLadder tryFn dflt (ms.map (fun m => (⟨m, prompt, false⟩, smallModelNote)) ++
        [(aR, reducedNote)]) =
      (match tryFallbackModels tryFn prompt ms with
       | (tried, some r) => (tried, Except.ok (r ++ smallModelNote))
       | (tried, none) =>
         match tryFn aR with
         | TryResult.ok r => (tried ++ [aR], Except.ok (r ++ reducedNote))
         | TryResult.fail _ => (tried ++ [aR], dflt)) := by
  intro ms
  induction ms with
  | nil =>
    cases h : tryFn aR <;>
      simp [walkLadder, tryFallbackModels, h]
  | cons m t ih =>
    cases htry : tryFn ⟨m, prompt, false⟩ with
    | ok r =>
      simp [walkLadder, tryFallbackModels, htry]
    | fail e2 =>
      simp only [List.map_cons, List.cons_append, walkLadder, htry, List.append_eq]
      rw [ih]
      simp only [tryFallbackModels, htry]
      cases hrest : tryFallbackModels tryFn prompt t with
      | mk tried ores =>
        cases ores with
        | some r => rfl
        | none => cases hred : tryFn aR <;> rfl

/-- Counterexample for C7: on a resource-class failure with a short context
(here 10 characters), the last-resort rung does not truncate the context to
its trailing half — `joined[-9000:]` keeps the whole 10-character context,
so all six attempts run with the identical prompt, while the claim's
trailing-half truncation would have produced a different prompt. -/
theorem C7_counterexample :
    (generate_summary_ladder (fun _ => TryResult.fail (txt "cuda"))
        (txt "Q:\n0123456789") (txt "0123456789")).1.map Attempt.prompt =
      [txt "Q:\n0123456789", txt "Q:\n0123456789", txt "Q:\n0123456789",
       txt "Q:\n0123456789", txt "Q:\n0123456789", txt "Q:\n0123456789"]
    ∧ reducedPromptOf (txt "Q:\n0123456789") (txt "0123456789") = txt "Q:\n0123456789"
    ∧ pyReplace (txt "0123456789") (claimReducedContext (txt "0123456789"))
        (txt "Q:\n0123456789") = txt "Q:\n56789"
    ∧ txt "Q:\n56789" ≠ txt "Q:\n0123456789" := by
  decide

/-- Claim C7 (corrected): after a primary failure whose error text contains
none of the resource keywords, the error is surfaced immediately with no
further attempt; after a resource-class primary failure the ladder tries,
in exactly this order, the same model CPU-forced (with the smaller 4096
context window), then each fallback model in list order, then the primary
model with the context replaced by its trailing `MAX_SAFE_CHARS // 2 =
9000` characters — which is the trailing half only when the context sits at
the 18000-character cap; shorter contexts are truncated less or kept whole.
Each rung runs only if all earlier rungs failed, and the first success
returns immediately with its annotation. -/
theorem C7_fallback_ladder (tryFn : TryFn) (prompt joined e : Txt)
    (hfail : tryFn ⟨LLM_MODEL_NAME, prompt, false⟩ = TryResult.fail e) :
    (isResourceErr e = false →
      generate_summary_ladder tryFn prompt joined =
        ([⟨LLM_MODEL_NAME, prompt, false⟩], Except.error (txt "Generation error: " ++ e)))
    ∧ (isResourceErr e = true →
      generate_summary_ladder tryFn prompt joined =
        (⟨LLM_MODEL_NAME, prompt, false⟩ ::
          (walkLadder tryFn (Except.error (txt "Generation GPU error; all fallbacks failed: " ++ e))
            (ladderTail prompt joined)).1,
         (walkLadder tryFn (Except.error (txt "Generation GPU error; all fallbacks failed: " ++ e))
            (ladderTail prompt joined)).2))
    ∧ tryNumCtx true < tryNumCtx false := by
  refine ⟨?_, ?_, by decide⟩
  · intro hres
    simp only [generate_summary_ladder, hfail, hres]
    rfl
  · intro hres
    simp only [generate_summary_ladder, hfail, hres, if_true]
    cases hcpu : tryFn ⟨LLM_MODEL_NAME, prompt, true⟩ with
    | ok r =>
      simp [ladderTail, walkLadder, hcpu]
    | fail e2 =>
      cases hf1 : tryFn ⟨txt "qwen2.5:7b-instruct-q4_K_M", prompt, false⟩ with
      | ok r =>
        simp [ladderTail, walkLadder, tryFallbackModels, FALLBACK_MODELS, hcpu, hf1]
      | fail e3 =>
        cases hf2 : tryFn ⟨txt "qwen2.5:3b-instruct-q4_K_M", prompt, false⟩ with
        | ok r =>
          simp [ladderTail, walkLadder, tryFallbackModels, FALLBACK_MODELS, hcpu, hf1, hf2]
        | fail e4 =>
          cases hf3 : tryFn ⟨txt "llama3.2:3b-instruct-q4_K_M", prompt, false⟩ with
          | ok r =>
            simp [ladderTail, walkLadder, tryFallbackModels, FALLBACK_MODELS, hcpu, hf1, hf2, hf3]
          | fail e5 =>
            cases hred : tryFn ⟨LLM_MODEL_NAME, reducedPromptOf prompt joined, false⟩ <;>
              simp [ladderTail, walkLadder, tryFallbackModels, FALLBACK_MODELS,
                hcpu, hf1, hf2, hf3, hred]

/-- Witness for C7: a resource-class primary failure followed by a
successful CPU-forced retry stops the ladder after exactly two attempts. -/
theorem C7_witness :
    generate_summary_ladder
      (fun a => if a.useCpu then TryResult.ok (txt "recovered")
                else TryResult.fail (txt "CUDA out of memory"))
      (txt "p") (txt "j") =
      ([⟨LLM_MODEL_NAME, txt "p", false⟩, ⟨LLM_MODEL_NAME, txt "p", true⟩],
       Except.ok (txt "recovered" ++ cpuNote)) := by
  have h := (C7_fallback_ladder
    (fun a => if a.useCpu then TryResult.ok (txt "recovered")
              else TryResult.fail (txt "CUDA out of memory"))
    (txt "p") (txt "j") (txt "CUDA out of memory") rfl).2.1 (by decide)
  rw [h]
  rfl

/-- The merge loop's fold equals first-occurrence deduplication with an
explicit seen-set. -/
theorem mergeFold {mu : Type} :
    ∀ (l : List (Chunk mu)) (seen : List Txt) (acc : List (Chunk mu)),
      l.foldl mergeStep (seen, acc) = (seenAfter seen l, acc ++ dedupAux seen l) := by
  intro l
  induction l with
  | nil => intro seen acc; simp [seenAfter, dedupAux]
  | cons c t ih =>
    intro seen acc
    by_cases h : chunkSig c ∈ seen
    · simp only [List.foldl_cons]
      rw [show mergeStep (seen, acc) c = (seen, acc) from by simp [mergeStep, h]]
      rw [ih]
      simp [seenAfter, dedupAux, h]
    · simp only [List.foldl_cons]
      rw [show mergeStep (seen, acc) c = (chunkSig c :: seen, acc ++ [c]) from by
        simp [mergeStep, h]]
      rw [ih]
      simp [seenAfter, dedupAux, h]

/-- The step-4 merge is first-occurrence dedup over the concatenation
structural ++ keyword ++ similarity. -/
theorem mergeChunks_eq_dedup {mu : Type} (st kw sim : List (Chunk mu)) :
    mergeChunks st kw sim = dedupAux [] (st ++ kw ++ sim) := by
  simp only [mergeChunks]
  rw [mergeFold]
  simp

/-- Dedup output is a sublist of its input. -/
theorem dedupAux_sublist {mu : Type} :
    ∀ (l : List (Chunk mu)) (seen : List Txt), List.Sublist (dedupAux seen l) l := by
  intro l
  induction l with
  | nil => intro seen; simp [dedupAux]
  | cons c t ih =>
    intro seen
    by_cases h : chunkSig c ∈ seen
    · simp only [dedupAux]
      rw [if_pos h]
      exact List.Sublist.cons c (ih seen)
    · simp only [dedupAux]
      rw [if_neg h]
      exact List.Sublist.cons₂ c (ih (chunkSig c :: seen))

/-- No kept chunk carries a signature that was already seen. -/
theorem dedupAux_sig_not_seen {mu : Type} :
    ∀ (l : List (Chunk mu)) (seen : List Txt) (c' : Chunk mu),
      c' ∈ dedupAux seen l → chunkSig c' ∉ seen := by
  intro l
  induction l with
  | nil => intro seen c' h; simp [dedupAux] at h
  | cons c t ih =>
    intro seen c' h
    simp only [dedupAux] at h
    by_cases hc : chunkSig c ∈ seen
    · rw [if_pos hc] at h
      exact ih seen c' h
    · rw [if_neg hc] at h
      rcases List.mem_cons.mp h with heq | hmem
      · rw [heq]; exact hc
      · have hnot := ih (chunkSig c :: seen) c' hmem
        intro hseen
        exact hnot (List.mem_cons_of_mem _ hseen)

/-- Dedup output signatures are pairwise distinct. -/
theorem dedupAux_pairwise {mu : Type} :
    ∀ (l : List (Chunk mu)) (seen : List Txt),
      List.Pairwise (fun a b => chunkSig a ≠ chunkSig b) (dedupAux seen l) := by
  intro l
  induction l with
  | nil => intro seen; simp [dedupAux]
  | cons c t ih =>
    intro seen
    simp only [dedupAux]
    by_cases hc : chunkSig c ∈ seen
    · rw [if_pos hc]; exact ih seen
    · rw [if_neg hc]
      refine List.Pairwise.cons ?_ (ih _)
      intro b hb heq
      have hnot := dedupAux_sig_not_seen t (chunkSig c :: seen) b hb
      exact hnot (by rw [← heq]; exact List.mem_cons_self _ _)

/-- Dedup distributes over append: the second part is deduplicated against
the signatures collected from the first. -/
theorem dedupAux_append {mu : Type} :
    ∀ (xs : List (Chunk mu)) (ys : List (Chunk mu)) (seen : List Txt),
      dedupAux seen (xs ++ ys) = dedupAux seen xs ++ dedupAux (seenAfter seen xs) ys := by
  intro xs
  induction xs with
  | nil => intro ys seen; simp [dedupAux, seenAfter]
  | cons c t ih =>
    intro ys seen
    simp only [List.cons_append, dedupAux, seenAfter]
    by_cases hc : chunkSig c ∈ seen <;> simp [hc, ih]

/-- Every input chunk whose signature is not already seen has a
representative with the same signature in the dedup output. -/
theorem dedupAux_represents {mu : Type} :
    ∀ (l : List (Chunk mu)) (seen : List Txt) (c : Chunk mu),
      c ∈ l → chunkSig c ∈ seen ∨ ∃ c', c' ∈ dedupAux seen l ∧ chunkSig c' = chunkSig c := by
  intro l
  induction l with
  | nil => intro seen c h; simp at h
  | cons a t ih =>
    intro seen c h
    rcases List.mem_cons.mp h with rfl | hmem
    · by_cases ha : chunkSig c ∈ seen
      · exact Or.inl ha
      · refine Or.inr ⟨c, ?_, rfl⟩
        simp only [dedupAux]
        rw [if_neg ha]
        exact List.mem_cons_self _ _
    · by_cases ha : chunkSig a ∈ seen
      · rcases ih seen c hmem with h1 | ⟨c', hc', he⟩
        · exact Or.inl h1
        · refine Or.inr ⟨c', ?_, he⟩
          simp only [dedupAux]
          rw [if_pos ha]
          exact hc'
      · rcases ih (chunkSig a :: seen) c hmem with h1 | ⟨c', hc', he⟩
        · rcases List.mem_cons.mp h1 with heq | hs
          · refine Or.inr ⟨a, ?_, heq.symm⟩
            simp only [dedupAux]
            rw [if_neg ha]
            exact List.mem_cons_self _ _
          · exact Or.inl hs
        · refine Or.inr ⟨c', ?_, he⟩
          simp only [dedupAux]
          rw [if_neg ha]
          exact List.mem_cons_of_mem _ hc'

/-- Every kept chunk is the *first* input chunk bearing its signature. -/
theorem dedupAux_first_wins {mu : Type} :
    ∀ (l : List (Chunk mu)) (seen : List Txt) (c' : Chunk mu),
      c' ∈ dedupAux seen l →
      ∃ i, l.get? i = some c' ∧
        ∀ j, j < i → ∀ cj, l.get? j = some cj → chunkSig cj ≠ chunkSig c' := by
  intro l
  induction l with
  | nil => intro seen c' h; simp [dedupAux] at h
  | cons a t ih =>
    intro seen c' h
    simp only [dedupAux] at h
    by_cases ha : chunkSig a ∈ seen
    · rw [if_pos ha] at h
      obtain ⟨i, hi, hj⟩ := ih seen c' h
      refine ⟨i + 1, by simpa using hi, ?_⟩
      intro j hj2 cj hcj
      cases j with
      | zero =>
        simp at hcj
        have hnot := dedupAux_sig_not_seen t seen c' h
        intro heq
        rw [← hcj] at heq
        exact hnot (heq ▸ ha)
      | succ k =>
        exact hj k (by omega) cj (by simpa using hcj)
    · rw [if_neg ha] at h
      rcases List.mem_cons.mp h with rfl | hmem
      · refine ⟨0, rfl, ?_⟩
        intro j hj
        exact absurd hj (Nat.not_lt_zero j)
      · obtain ⟨i, hi, hj⟩ := ih (chunkSig a :: seen) c' hmem
        refine ⟨i + 1, by simpa using hi, ?_⟩
        intro j hj2 cj hcj
        cases j with
        | zero =>
          simp at hcj
          have hnot := dedupAux_sig_not_seen t (chunkSig a :: seen) c' hmem
          intro heq
          rw [← hcj] at heq
          exact hnot (heq ▸ List.mem_cons_self _ _)
        | succ k =>
          exact hj k (by omega) cj (by simpa using hcj)

/-- Claim C1 (confirmed): the merged list keeps tier priority — it splits
as a sublist of the structural chunks, then a sublist of the keyword
chunks, then a sublist of the similarity chunks; no two retained fragments
share a first-200-character signature; every candidate's signature is
represented; and each retained fragment is the earliest candidate (in
tier-then-position order) bearing its signature. -/
theorem C1_merge_priority_dedup {mu : Type} (st kw sim : List (Chunk mu)) :
    List.Pairwise (fun a b => chunkSig a ≠ chunkSig b) (mergeChunks st kw sim)
    ∧ (∃ s1 s2 s3, mergeChunks st kw sim = s1 ++ s2 ++ s3 ∧ List.Sublist s1 st ∧ List.Sublist s2 kw ∧ List.Sublist s3 sim)
    ∧ (∀ c ∈ st ++ kw ++ sim, ∃ c', c' ∈ mergeChunks st kw sim ∧ chunkSig c' = chunkSig c)
    ∧ (∀ c' ∈ mergeChunks st kw sim, ∃ i, (st ++ kw ++ sim).get? i = some c' ∧
        ∀ j, j < i → ∀ cj, (st ++ kw ++ sim).get? j = some cj → chunkSig cj ≠ chunkSig c') := by
  have hme := mergeChunks_eq_dedup st kw sim
  refine ⟨?_, ?_, ?_, ?_⟩
  · rw [hme]
    exact dedupAux_pairwise _ _
  · refine ⟨dedupAux [] st, dedupAux (seenAfter [] st) kw,
      dedupAux (seenAfter (seenAfter [] st) kw) sim, ?_,
      dedupAux_sublist st [], dedupAux_sublist kw _, dedupAux_sublist sim _⟩
    have hsplit : dedupAux ([] : List Txt) (st ++ (kw ++ sim)) =
        dedupAux [] st ++ (dedupAux (seenAfter [] st) kw ++
          dedupAux (seenAfter (seenAfter [] st) kw) sim) := by
      rw [dedupAux_append st (kw ++ sim) [], dedupAux_append kw sim (seenAfter [] st)]
    rw [hme, List.append_assoc, hsplit, List.append_assoc]
  · intro c hc
    rcases dedupAux_represents (st ++ kw ++ sim) [] c hc with h | ⟨c', h1, h2⟩
    · simp at h
    · exact ⟨c', by rw [hme]; exact h1, h2⟩
  · intro c' hc'
    rw [hme] at hc'
    exact dedupAux_first_wins _ [] c' hc'

/-- Witness for C1: a structural and a similarity chunk share a signature;
the structural one is kept, tier order is preserved. -/
theorem C1_witness :
    mergeChunks [(⟨1, 1, txt "x", 0⟩ : Chunk Nat)] [⟨2, 1, txt "y", 0⟩] [⟨3, 2, txt "x", 0⟩] =
      [⟨1, 1, txt "x", 0⟩, ⟨2, 1, txt "y", 0⟩]
    ∧ List.Pairwise (fun a b => chunkSig a ≠ chunkSig b)
        (mergeChunks [(⟨1, 1, txt "x", 0⟩ : Chunk Nat)] [⟨2, 1, txt "y", 0⟩] [⟨3, 2, txt "x", 0⟩]) :=
  ⟨by decide,
   (C1_merge_priority_dedup [(⟨1, 1, txt "x", 0⟩ : Chunk Nat)] [⟨2, 1, txt "y", 0⟩]
      [⟨3, 2, txt "x", 0⟩]).1⟩

/-- `List.intercalate` on the empty list. -/
theorem ical_nil (sep : Txt) : List.intercalate sep ([] : List Txt) = [] := by
  simp [List.intercalate]

/-- `List.intercalate` on a one-element list. -/
theorem ical_single (sep : Txt) (x : Txt) : List.intercalate sep [x] = x := by
  simp [List.intercalate]

/-- `List.intercalate` unfolding on a two-or-more-element list. -/
theorem ical_cons_cons (sep x y : Txt) (l : List Txt) :
    List.intercalate sep (x :: y :: l) = x ++ sep ++ List.intercalate sep (y :: l) := by
  simp [List.intercalate, List.intersperse_cons_cons, List.append_assoc]

/-- `List.intercalate` over a snoc. -/
theorem ical_snoc (sep : Txt) : ∀ (ls : List Txt) (y : Txt), ls ≠ [] →
    List.intercalate sep (ls ++ [y]) = List.intercalate sep ls ++ sep ++ y := by
  intro ls
  induction ls with
  | nil => intro y h; exact absurd rfl h
  | cons a t ih =>
    intro y _
    cases t with
    | nil =>
      rw [show ([a] : List Txt) ++ [y] = [a, y] from rfl, ical_cons_cons, ical_single, ical_single]
    | cons b t' =>
      rw [show (a :: b :: t') ++ [y] = a :: ((b :: t') ++ [y]) from rfl]
      rw [show ((b :: t') : List Txt) ++ [y] = b :: (t' ++ [y]) from rfl]
      rw [ical_cons_cons]
      rw [show (b :: (t' ++ [y]) : List Txt) = (b :: t') ++ [y] from rfl]
      rw [ih y (by simp)]
      rw [ical_cons_cons]
      simp [List.append_assoc]

/-- Reversing an intercalation with a palindromic separator reverses and
flips the pieces. -/
theorem ical_reverse (sep : Txt) (hsep : sep.reverse = sep) : ∀ (lines : List Txt),
    (List.intercalate sep lines).reverse =
      List.intercalate sep ((lines.map List.reverse).reverse) := by
  intro lines
  induction lines with
  | nil => simp [ical_nil]
  | cons x t ih =>
    cases t with
    | nil => simp [ical_single]
    | cons y t' =>
      rw [ical_cons_cons, List.reverse_append, List.reverse_append, ih]
      have hmap : (((x :: y :: t').map List.reverse).reverse : List Txt) =
          ((y :: t').map List.reverse).reverse ++ [x.reverse] := by simp
      rw [hmap, ical_snoc sep _ _ (by simp)]
      rw [hsep]
      simp [List.append_assoc]

/-- The head of the reversal is the last element. -/
theorem head?_rev {α : Type} : ∀ (l : List α), l.reverse.head? = l.getLast? := by
  intro l
  induction l with
  | nil => rfl
  | cons a t ih =>
    cases t with
    | nil => rfl
    | cons b t' =>
      rw [List.getLast?_cons_cons, ← ih, List.reverse_cons,
        List.head?_append_of_ne_nil _ (by simp)]

/-- A head surviving `dropWhile` fails the predicate. -/
theorem dropWhile_head_not {α : Type} (p : α → Bool) : ∀ (l : List α) (a : α),
    (List.dropWhile p l).head? = some a → p a = false := by
  intro l
  induction l with
  | nil => intro a h; simp at h
  | cons c t ih =>
    intro a h
    by_cases hc : p c = true
    · rw [List.dropWhile_cons, if_pos hc] at h
      exact ih a h
    · rw [List.dropWhile_cons, if_neg hc] at h
      simp only [List.head?_cons, Option.some.injEq] at h
      rw [← h]
      simpa using hc

/-- `dropWhile` produces a suffix. -/
theorem dropWhile_suffix_ex {α : Type} (p : α → Bool) :
    ∀ l : List α, ∃ t, t ++ List.dropWhile p l = l := by
  intro l
  induction l with
  | nil => exact ⟨[], rfl⟩
  | cons c t ih =>
    by_cases hc : p c = true
    · obtain ⟨pre, hp⟩ := ih
      refine ⟨c :: pre, ?_⟩
      rw [List.dropWhile_cons, if_pos hc]
      simp [hp]
    · refine ⟨[], ?_⟩
      rw [List.dropWhile_cons, if_neg hc]
      rfl

/-- Membership survives `dropWhile` backwards. -/
theorem mem_of_dropWhile {α : Type} (p : α → Bool) (l : List α) (a : α)
    (h : a ∈ List.dropWhile p l) : a ∈ l := by
  obtain ⟨pre, hp⟩ := dropWhile_suffix_ex p l
  rw [← hp]
  exact List.mem_append_right pre h

/-- Both ends of a stripped string are free of whitespace. -/
theorem pyStrip_ends (s : Txt) :
    (∀ c, (pyStrip s).head? = some c → isPyWs c = false)
    ∧ (∀ c, (pyStrip s).getLast? = some c → isPyWs c = false) := by
  constructor
  · intro c hc
    simp only [pyStrip] at hc
    rw [head?_rev] at hc
    obtain ⟨pre, hp⟩ := dropWhile_suffix_ex isPyWs (List.dropWhile isPyWs s).reverse
    have hBne : List.dropWhile isPyWs (List.dropWhile isPyWs s).reverse ≠ [] := by
      intro h0
      rw [h0] at hc
      simp at hc
    have hfull : List.getLast?
        (pre ++ List.dropWhile isPyWs (List.dropWhile isPyWs s).reverse) = some c := by
      rw [List.getLast?_append_of_ne_nil _ hBne]
      exact hc
    rw [hp] at hfull
    have h2 := head?_rev (List.dropWhile isPyWs s).reverse
    rw [List.reverse_reverse] at h2
    have hA : (List.dropWhile isPyWs s).head? = some c := by
      rw [h2]
      exact hfull
    exact dropWhile_head_not isPyWs s c hA
  · intro c hc
    simp only [pyStrip] at hc
    have h2 := head?_rev (List.dropWhile isPyWs (List.dropWhile isPyWs s).reverse).reverse
    rw [List.reverse_reverse] at h2
    rw [← h2] at hc
    exact dropWhile_head_not isPyWs _ c hc

/-- Characters of a stripped string come from the original. -/
theorem mem_of_pyStrip (s : Txt) (c : Char) (h : c ∈ pyStrip s) : c ∈ s := by
  simp only [pyStrip] at h
  rw [List.mem_reverse] at h
  have h1 := mem_of_dropWhile isPyWs _ c h
  rw [List.mem_reverse] at h1
  exact mem_of_dropWhile isPyWs _ c h1

/-- A head equation gives membership. -/
theorem mem_of_head?Eq {α : Type} (l : List α) (a : α) (h : l.head? = some a) : a ∈ l := by
  cases l with
  | nil => simp at h
  | cons c t =>
    simp only [List.head?_cons, Option.some.injEq] at h
    rw [← h]
    exact List.mem_cons_self _ _

/-- A last-element equation gives membership. -/
theorem mem_of_getLast?Eq {α : Type} : ∀ (l : List α) (a : α), l.getLast? = some a → a ∈ l := by
  intro l
  induction l with
  | nil => intro a h; simp at h
  | cons c t ih =>
    intro a h
    cases t with
    | nil =>
      simp only [List.getLast?_singleton, Option.some.injEq] at h
      rw [← h]
      exact List.mem_cons_self _ _
    | cons b t' =>
      rw [List.getLast?_cons_cons] at h
      exact List.mem_cons_of_mem _ (ih a h)

/-- Tokens produced by `str.split()` are non-empty and whitespace-free. -/
theorem pySplitWsAux_tokens : ∀ (s : Txt) (cur : Txt),
    (∀ c ∈ cur, isPyWs c = false) →
    ∀ t ∈ pySplitWsAux cur s, t ≠ [] ∧ ∀ c ∈ t, isPyWs c = false := by
  intro s
  induction s with
  | nil =>
    intro cur hcur t ht
    simp only [pySplitWsAux] at ht
    by_cases hc : cur.isEmpty = true
    · rw [if_pos hc] at ht
      simp at ht
    · rw [if_neg hc] at ht
      simp only [List.mem_singleton] at ht
      subst ht
      have hne : cur ≠ [] := by simpa [List.isEmpty_iff] using hc
      constructor
      · simpa using hne
      · intro c hcin
        exact hcur c (by rwa [List.mem_reverse] at hcin)
  | cons a t ih =>
    intro cur hcur tok htok
    simp only [pySplitWsAux] at htok
    by_cases ha : isPyWs a = true
    · rw [if_pos ha] at htok
      by_cases hc : cur.isEmpty = true
      · rw [if_pos hc] at htok
        exact ih [] (by simp) tok htok
      · rw [if_neg hc] at htok
        rcases List.mem_cons.mp htok with rfl | hm
        · have hne : cur ≠ [] := by simpa [List.isEmpty_iff] using hc
          constructor
          · simpa using hne
          · intro c hcin
            exact hcur c (by rwa [List.mem_reverse] at hcin)
        · exact ih [] (by simp) tok hm
    · rw [if_neg ha] at htok
      refine ih (a :: cur) ?_ tok htok
      intro c hcin
      rcases List.mem_cons.mp hcin with rfl | hm
      · simpa using ha
      · exact hcur c hm

/-- A whitespace-free text has no adjacent whitespace pair. -/
theorem noWs_noAdjacent : ∀ (l : Txt), (∀ c ∈ l, isPyWs c = false) →
    hasAdjacentWs l = false := by
  intro l
  induction l with
  | nil => intro _; rfl
  | cons a t ih =>
    intro h
    cases t with
    | nil => rfl
    | cons b t' =>
      simp only [hasAdjacentWs]
      rw [h a (by simp)]
      simp only [Bool.false_and, Bool.false_or]
      exact ih (fun c hc => h c (List.mem_cons_of_mem _ hc))

/-- Adjacent-whitespace freedom is preserved by appending, provided the
junction is not a whitespace pair. -/
theorem hasAdjacentWs_append : ∀ (xs ys : Txt),
    hasAdjacentWs xs = false → hasAdjacentWs ys = false →
    (∀ a b, xs.getLast? = some a → ys.head? = some b → (isPyWs a && isPyWs b) = false) →
    hasAdjacentWs (xs ++ ys) = false := by
  intro xs
  induction xs with
  | nil => intro ys _ hys _; simpa using hys
  | cons a t ih =>
    intro ys hxs hys hb
    cases t with
    | nil =>
      cases ys with
      | nil => rfl
      | cons b ys' =>
        simp only [List.singleton_append, hasAdjacentWs]
        rw [hb a b rfl rfl]
        simpa using hys
    | cons a2 t' =>
      have hparts := Bool.or_eq_false_iff.mp (by simpa only [hasAdjacentWs] using hxs)
      have h3 : hasAdjacentWs ((a2 :: t') ++ ys) = false := by
        refine ih ys hparts.2 hys ?_
        intro x y hx hy
        exact hb x y (by rw [List.getLast?_cons_cons]; exact hx) hy
      simp only [List.cons_append, hasAdjacentWs]
      rw [hparts.1]
      simpa using h3

/-- Joining non-empty whitespace-free tokens with single spaces yields a
well-formed line. -/
theorem join_tokens_good : ∀ (toks : List Txt),
    (∀ t ∈ toks, t ≠ [] ∧ ∀ c ∈ t, isPyWs c = false) →
    lineGood (List.intercalate (txt " ") toks) := by
  intro toks
  induction toks with
  | nil =>
    intro _
    rw [ical_nil]
    exact ⟨by simp, by simp, rfl, by simp⟩
  | cons x t ih =>
    intro h
    cases t with
    | nil =>
      rw [ical_single]
      obtain ⟨hne, hws⟩ := h x (by simp)
      exact ⟨fun c hc => hws c (mem_of_head?Eq x c hc),
        fun c hc => hws c (mem_of_getLast?Eq x c hc),
        noWs_noAdjacent x hws,
        fun c hc => Or.inl (hws c hc)⟩
    | cons y t' =>
      rw [ical_cons_cons]
      obtain ⟨hxne, hxws⟩ := h x (by simp)
      obtain ⟨rh, rl, ra, rc⟩ := ih (fun tk htk => h tk (List.mem_cons_of_mem _ htk))
      have hJne : List.intercalate (txt " ") (y :: t') ≠ [] := by
        obtain ⟨hyne, _⟩ := h y (by simp)
        cases t' with
        | nil =>
          rw [ical_single]
          exact hyne
        | cons z t'' =>
          rw [ical_cons_cons]
          simp [hyne]
      refine ⟨?_, ?_, ?_, ?_⟩
      · intro c hc
        rw [List.head?_append_of_ne_nil _ (by simp [hxne]),
          List.head?_append_of_ne_nil _ hxne] at hc
        exact hxws c (mem_of_head?Eq x c hc)
      · intro c hc
        rw [List.append_assoc, List.getLast?_append_of_ne_nil _ (by simp [hJne]),
          List.getLast?_append_of_ne_nil _ hJne] at hc
        exact rl c hc
      · rw [List.append_assoc]
        refine hasAdjacentWs_append x _ (noWs_noAdjacent x hxws) ?_ ?_
        · cases hJ : List.intercalate (txt " ") (y :: t') with
          | nil => rfl
          | cons jb jt =>
            have hjb : isPyWs jb = false := by
              refine rh jb ?_
              rw [hJ]
              rfl
            rw [show (txt " ") ++ (jb :: jt) = ' ' :: jb :: jt from rfl]
            simp only [hasAdjacentWs]
            rw [hjb]
            simp only [Bool.and_false, Bool.false_or]
            rw [← hJ]
            exact ra
        · intro a b hlast hhead
          have := hxws a (mem_of_getLast?Eq x a hlast)
          simp [this]
      · intro c hc
        rw [List.append_assoc] at hc
        rcases List.mem_append.mp hc with h1 | h2
        · exact Or.inl (hxws c h1)
        · rcases List.mem_append.mp h2 with h3 | h4
          · right
            rw [show (txt " ") = [' '] from rfl] at h3
            simpa using h3
          · exact rc c h4

/-- Characters of a newline-joined line list are newlines or line
characters. -/
theorem mem_ical : ∀ (lines : List Txt) (c : Char),
    c ∈ List.intercalate (txt "\n") lines → c = '\n' ∨ ∃ l, l ∈ lines ∧ c ∈ l := by
  intro lines
  induction lines with
  | nil =>
    intro c h
    rw [ical_nil] at h
    simp at h
  | cons x t ih =>
    intro c h
    cases t with
    | nil =>
      rw [ical_single] at h
      exact Or.inr ⟨x, by simp, h⟩
    | cons y t' =>
      rw [ical_cons_cons] at h
      rcases List.mem_append.mp h with h1 | h2
      · rcases List.mem_append.mp h1 with h3 | h4
        · exact Or.inr ⟨x, by simp, h3⟩
        · left
          rw [show (txt "\n") = ['\n'] from rfl] at h4
          simpa using h4
      · rcases ih c h2 with h5 | ⟨l, hl, hcl⟩
        · exact Or.inl h5
        · exact Or.inr ⟨l, List.mem_cons_of_mem _ hl, hcl⟩

/-- Splitting a separator-free text yields the single piece. -/
theorem splitOnChar_no_sep (sep : Char) : ∀ (l : Txt), sep ∉ l →
    splitOnChar sep l = [l] := by
  intro l
  induction l with
  | nil => intro _; rfl
  | cons c t ih =>
    intro h
    have hc : ¬(c = sep) := fun he => h (by rw [← he]; exact List.mem_cons_self _ _)
    simp only [splitOnChar]
    rw [if_neg hc, ih (fun hm => h (List.mem_cons_of_mem _ hm))]

/-- Splitting peels a separator-free piece before a separator. -/
theorem splitOnChar_append_sep (sep : Char) : ∀ (l s : Txt), sep ∉ l →
    splitOnChar sep (l ++ sep :: s) = l :: splitOnChar sep s := by
  intro l
  induction l with
  | nil =>
    intro s _
    simp [splitOnChar]
  | cons c t ih =>
    intro s h
    have hc : ¬(c = sep) := fun he => h (by rw [← he]; exact List.mem_cons_self _ _)
    simp only [List.cons_append, splitOnChar, List.append_eq]
    rw [if_neg hc, ih s (fun hm => h (List.mem_cons_of_mem _ hm))]

/-- `splitOnChar` is a left inverse of single-separator intercalation on
separator-free non-empty line lists. -/
theorem splitOnChar_ical (sep : Char) : ∀ (lines : List Txt), lines ≠ [] →
    (∀ l ∈ lines, sep ∉ l) →
    splitOnChar sep (List.intercalate [sep] lines) = lines := by
  intro lines
  induction lines with
  | nil => intro h; exact absurd rfl h
  | cons x t ih =>
    intro _ h
    cases t with
    | nil =>
      rw [ical_single]
      exact splitOnChar_no_sep sep x (h x (by simp))
    | cons y t' =>
      rw [ical_cons_cons, List.append_assoc]
      rw [show ([sep] : Txt) ++ List.intercalate [sep] (y :: t') =
        sep :: List.intercalate [sep] (y :: t') from rfl]
      rw [splitOnChar_append_sep sep x _ (h x (by simp))]
      rw [ih (by simp) (fun l hl => h l (List.mem_cons_of_mem _ hl))]

/-- Left whitespace-stripping a newline-join of lines with non-whitespace
heads only drops the leading empty lines. -/
theorem dropWhile_ical : ∀ (lines : List Txt),
    (∀ l ∈ lines, ∀ c, l.head? = some c → isPyWs c = false) →
    List.dropWhile isPyWs (List.intercalate (txt "\n") lines) =
      List.intercalate (txt "\n") (List.dropWhile List.isEmpty lines) := by
  intro lines
  induction lines with
  | nil => intro _; simp [ical_nil]
  | cons l t ih =>
    intro h
    cases t with
    | nil =>
      cases l with
      | nil => simp [ical_single, ical_nil]
      | cons c cs =>
        have hc : isPyWs c = false := h (c :: cs) (by simp) c rfl
        simp [ical_single, List.dropWhile_cons, hc]
    | cons l2 t' =>
      rw [ical_cons_cons]
      cases l with
      | nil =>
        simp only [List.nil_append]
        rw [show (txt "\n") ++ List.intercalate (txt "\n") (l2 :: t') =
          '\n' :: List.intercalate (txt "\n") (l2 :: t') from rfl]
        rw [List.dropWhile_cons, if_pos (by decide)]
        rw [ih (fun l' hl' => h l' (List.mem_cons_of_mem _ hl'))]
        rw [show List.dropWhile List.isEmpty (([] : Txt) :: l2 :: t') =
          List.dropWhile List.isEmpty (l2 :: t') from by
            rw [List.dropWhile_cons, if_pos (by decide)]]
      | cons c cs =>
        have hc : isPyWs c = false := h (c :: cs) (by simp) c rfl
        rw [show ((c :: cs) ++ txt "\n") ++ List.intercalate (txt "\n") (l2 :: t') =
          c :: (cs ++ txt "\n" ++ List.intercalate (txt "\n") (l2 :: t')) from by
            simp [List.append_assoc]]
        rw [List.dropWhile_cons, if_neg (by simp [hc])]
        rw [show List.dropWhile List.isEmpty ((c :: cs) :: l2 :: t') =
          (c :: cs) :: l2 :: t' from by
            rw [List.dropWhile_cons, if_neg (by simp)]]
        rw [ical_cons_cons]
        simp [List.append_assoc]

/-- Stripping a newline-join of lines with whitespace-free ends yields a
newline-join of a subset of those lines. -/
theorem strip_ical (lines : List Txt)
    (hh : ∀ l ∈ lines, ∀ c, l.head? = some c → isPyWs c = false)
    (hl : ∀ l ∈ lines, ∀ c, l.getLast? = some c → isPyWs c = false) :
    ∃ lines', pyStrip (List.intercalate (txt "\n") lines) =
      List.intercalate (txt "\n") lines' ∧ ∀ l ∈ lines', l ∈ lines := by
  have hsep : ((txt "\n") : Txt).reverse = txt "\n" := rfl
  have h1 : List.dropWhile isPyWs (List.intercalate (txt "\n") lines) =
      List.intercalate (txt "\n") (List.dropWhile List.isEmpty lines) :=
    dropWhile_ical lines hh
  have hL1mem : ∀ l ∈ List.dropWhile List.isEmpty lines, l ∈ lines :=
    fun l hm => mem_of_dropWhile List.isEmpty lines l hm
  have h2 : (List.intercalate (txt "\n") (List.dropWhile List.isEmpty lines)).reverse =
      List.intercalate (txt "\n")
        (((List.dropWhile List.isEmpty lines).map List.reverse).reverse) :=
    ical_reverse (txt "\n") hsep _
  have hrevheads : ∀ l ∈ ((List.dropWhile List.isEmpty lines).map List.reverse).reverse,
      ∀ c, l.head? = some c → isPyWs c = false := by
    intro l hm c hc
    rw [List.mem_reverse, List.mem_map] at hm
    obtain ⟨orig, hor, rfl⟩ := hm
    rw [head?_rev] at hc
    exact hl orig (hL1mem orig hor) c hc
  have h3 : List.dropWhile isPyWs (List.intercalate (txt "\n")
      (((List.dropWhile List.isEmpty lines).map List.reverse).reverse)) =
      List.intercalate (txt "\n") (List.dropWhile List.isEmpty
        (((List.dropWhile List.isEmpty lines).map List.reverse).reverse)) :=
    dropWhile_ical _ hrevheads
  refine ⟨((List.dropWhile List.isEmpty
      (((List.dropWhile List.isEmpty lines).map List.reverse).reverse)).map
        List.reverse).reverse, ?_, ?_⟩
  · simp only [pyStrip]
    rw [h1, h2, h3]
    exact ical_reverse (txt "\n") hsep _
  · intro l hm
    rw [List.mem_reverse, List.mem_map] at hm
    obtain ⟨rl, hrl, rfl⟩ := hm
    have hrl2 := mem_of_dropWhile List.isEmpty _ rl hrl
    rw [List.mem_reverse, List.mem_map] at hrl2
    obtain ⟨orig, hor, rfl⟩ := hrl2
    rw [List.reverse_reverse]
    exact hL1mem orig hor

/-- Claim C10 (confirmed): for every input string (and any behaviour of the
opaque NFKC pass), the normalizer's output contains no carriage return, has
no leading or trailing whitespace, and every line of the output — split on
newlines — has whitespace-free ends and no run of two adjacent whitespace
characters (tokens are joined by single spaces). -/
theorem C10_normalizer (nfkc : Txt → Txt) (s : Txt) :
    (∀ c ∈ normalize_text nfkc s, c ≠ '\r')
    ∧ (∀ c, (normalize_text nfkc s).head? = some c → isPyWs c = false)
    ∧ (∀ c, (normalize_text nfkc s).getLast? = some c → isPyWs c = false)
    ∧ (∀ line ∈ splitOnChar '\n' (normalize_text nfkc s),
        (∀ c, line.head? = some c → isPyWs c = false)
        ∧ (∀ c, line.getLast? = some c → isPyWs c = false)
        ∧ hasAdjacentWs line = false) := by
  have hnorm : normalize_text nfkc s =
      pyStrip (List.intercalate (txt "\n")
        ((splitOnChar '\n' (pyReplace (txt "\r") (txt "\n")
            (pyReplace (txt "\r\n") (txt "\n")
              (mojibakeReplacements.foldl (fun acc kv => pyReplace kv.1 kv.2 acc) (nfkc s))))).map
          (fun line => List.intercalate (txt " ") (pySplitWs line)))) := rfl
  have hgood : ∀ l ∈ (splitOnChar '\n' (pyReplace (txt "\r") (txt "\n")
      (pyReplace (txt "\r\n") (txt "\n")
        (mojibakeReplacements.foldl (fun acc kv => pyReplace kv.1 kv.2 acc) (nfkc s))))).map
      (fun line => List.intercalate (txt " ") (pySplitWs line)), lineGood l := by
    intro l hlm
    obtain ⟨line, _, rfl⟩ := List.mem_map.mp hlm
    exact join_tokens_good (pySplitWs line) (pySplitWsAux_tokens line [] (by simp))
  obtain ⟨lines', heq, hmem⟩ := strip_ical _
    (fun l hlm => (hgood l hlm).1) (fun l hlm => (hgood l hlm).2.1)
  have hout : normalize_text nfkc s = List.intercalate (txt "\n") lines' := by
    rw [hnorm, heq]
  have hgood' : ∀ l ∈ lines', lineGood l := fun l hlm => hgood l (hmem l hlm)
  refine ⟨?_, ?_, ?_, ?_⟩
  · intro c hc
    rw [hout] at hc
    rcases mem_ical lines' c hc with rfl | ⟨l, hlm, hcl⟩
    · decide
    · rcases (hgood' l hlm).2.2.2 c hcl with hws | hsp
      · intro he
        rw [he] at hws
        exact absurd hws (by decide)
      · rw [hsp]
        decide
  · intro c hc
    rw [hnorm] at hc
    exact (pyStrip_ends _).1 c hc
  · intro c hc
    rw [hnorm] at hc
    exact (pyStrip_ends _).2 c hc
  · intro line hline
    rw [hout] at hline
    by_cases hn : lines' = []
    · rw [hn, ical_nil] at hline
      simp only [splitOnChar, List.mem_singleton] at hline
      subst hline
      exact ⟨by simp, by simp, rfl⟩
    · have hnl : ∀ l ∈ lines', '\n' ∉ l := by
        intro l hlm hin
        rcases (hgood' l hlm).2.2.2 '\n' hin with hws | hsp
        · exact absurd hws (by decide)
        · exact absurd hsp (by decide)
      rw [show (txt "\n") = ['\n'] from rfl] at hline
      rw [splitOnChar_ical '\n' lines' hn hnl] at hline
      obtain ⟨g1, g2, g3, _⟩ := hgood' line hline
      exact ⟨g1, g2, g3⟩

/-- Witness for C10 on a concrete mojibake-free input. -/
theorem C10_witness :
    normalize_text (fun t => t) (txt "  a\r\nb   c  ") = txt "a\nb c"
    ∧ (∀ c, (normalize_text (fun t => t) (txt "  a\r\nb   c  ")).head? = some c →
        isPyWs c = false) :=
  ⟨by decide, (C10_normalizer (fun t => t) (txt "  a\r\nb   c  ")).2.1⟩
